import Mathlib

/-!
Resell BD backend: request handlers over a document store.

A shallow embedding of `src/index.js`.  Every route registered in `serverStart`
is a function from the store state (the three collections `Users`, `Products`,
`Orders`) and the request to an outcome: the new store state, what was sent to
the client (or the error that escaped the handler), and the calls issued to
the document store and to the payment provider, in order.

Modelling boundary.  The document store and the payment provider are external
services.  A collection is the list of its documents in natural (insertion)
order; `findOne` returns the first match, `updateOne` and `deleteOne` act on
the first match, `find` and `updateMany` on every match.  Field values are
JSON scalars (and dates); a request body is the list of its fields.  On an insert
the driver stamps a fresh `ObjectId` on a document that brings no `_id` (or a
null one); a document that brings its own `_id` keeps it, and the store rejects
it with a duplicate-key error when a stored document of the collection already
has that `_id`.  No handler catches that error.  A path parameter `:id` is
modelled after `new ObjectId(id)` has accepted it.
-/

namespace ResellBd

/-! ## Documents -/

/-- Scalar held by a document field or by a field of a JSON request body. -/
inductive Value where
  | null
  | bool (b : Bool)
  | num (n : Int)
  | str (s : String)
  | date (ms : Int)
  deriving DecidableEq, Repr

/-- Fields of an object, in property order. -/
abbrev Fields := List (String × Value)

/-- Identifier the driver generates for an inserted document. -/
abbrev ObjectId := Nat

/-- Value of `_id` of a stored document: an `ObjectId` the driver generated, or the value
the inserted document brought along. -/
inductive DocId where
  | generated (n : ObjectId)
  | given (v : Value)
  deriving DecidableEq, Repr

/-- Stored document: its `_id` and its other fields. -/
structure Doc where
  oid : DocId
  fields : Fields
  deriving DecidableEq, Repr

/-- Property read `obj.k`; `none` is JavaScript `undefined`. -/
def getField : Fields → String → Option Value
  | [], _ => none
  | (k', v) :: rest, k => if k' = k then some v else getField rest k

/-- Property write `obj.k = v`: replaces the value in place, or appends the property. -/
def setField : Fields → String → Value → Fields
  | [], k, v => [(k, v)]
  | (k', v') :: rest, k, v =>
    if k' = k then (k, v) :: rest else (k', v') :: setField rest k v

/-- Fields of an object other than `k`. -/
def eraseField (f : Fields) (k : String) : Fields :=
  f.filter (fun p => decide (p.1 ≠ k))

/-- The `_id` a document brings to an insert; `none` when it is undefined or null, the two
cases in which the driver generates one. -/
def givenId (f : Fields) : Option Value :=
  match getField f "_id" with
  | some .null => none
  | other => other

/-- JavaScript truthiness of a value read from an object. -/
def truthy : Option Value → Bool
  | none => false
  | some .null => false
  | some (.bool b) => b
  | some (.num n) => decide (n ≠ 0)
  | some (.str s) => decide (s ≠ "")
  | some (.date _) => true

/-- The expression `a || b` with a defined right operand. -/
def jsOr (a : Option Value) (b : Value) : Value :=
  match a with
  | some v => if truthy (some v) then v else b
  | none => b

/-- BSON serialisation of a possibly undefined value: the driver writes `undefined` as null. -/
def bson : Option Value → Value
  | some v => v
  | none => .null

/-! ## The document store -/

/-- Query filters used by the handlers: `{}`, `{ _id }` and equality on named fields. -/
inductive Filter where
  | all
  | byId (id : ObjectId)
  | byFields (conds : List (String × Value))
  deriving Repr

/-- Equality match on one field: a null query value matches a null or missing field. -/
def fieldMatches (d : Doc) (k : String) (q : Value) : Bool :=
  decide (bson (getField d.fields k) = q)

/-- Whether a document satisfies a filter. -/
def Filter.matches : Filter → Doc → Bool
  | .all, _ => true
  | .byId i, d => decide (d.oid = .generated i)
  | .byFields conds, d => conds.all (fun c => fieldMatches d c.1 c.2)

/-- Counts reported by an update. -/
structure UpdateResult where
  matchedCount : Nat
  modifiedCount : Nat
  deriving DecidableEq, Repr

/-- Collection method `findOne(filter)`: first match in natural order. -/
def findOne (c : List Doc) (q : Filter) : Option Doc :=
  c.find? q.matches

/-- Collection method `find(filter).toArray()`. -/
def find (c : List Doc) (q : Filter) : List Doc :=
  c.filter q.matches

/-- Message of the duplicate-key error of the store. -/
def duplicateKey : String := "MongoServerError: E11000 duplicate key error"

/-- Collection method `insertOne(doc)`; `fresh` is the identifier the driver generates when
the document brings none.  The result is the new collection with the `insertedId`, or the
duplicate-key error when the `_id` the document brings is already in the collection. -/
def insertOne (c : List Doc) (fresh : ObjectId) (f : Fields) : Except String (List Doc × DocId) :=
  match givenId f with
  | none => .ok (c ++ [⟨.generated fresh, eraseField f "_id"⟩], .generated fresh)
  | some v =>
    if c.any (fun d => decide (d.oid = .given v)) then .error duplicateKey
    else .ok (c ++ [⟨.given v, eraseField f "_id"⟩], .given v)

/-- Update operator `$set` applied to one document. -/
def applySet (upd : Fields) (d : Doc) : Doc :=
  { d with fields := upd.foldl (fun f kv => setField f kv.1 kv.2) d.fields }

/-- Modification count of one matched document: 0 when `$set` left it as it was. -/
def modified (upd : Fields) (d : Doc) : Nat :=
  if applySet upd d = d then 0 else 1

/-- Collection method `updateOne(filter, { $set })`. -/
def updateOne : List Doc → Filter → Fields → List Doc × UpdateResult
  | [], _, _ => ([], ⟨0, 0⟩)
  | d :: rest, q, upd =>
    if q.matches d then (applySet upd d :: rest, ⟨1, modified upd d⟩)
    else ((d :: (updateOne rest q upd).1), (updateOne rest q upd).2)

/-- Collection method `updateMany(filter, { $set })`. -/
def updateMany (c : List Doc) (q : Filter) (upd : Fields) : List Doc × UpdateResult :=
  (c.map (fun d => if q.matches d then applySet upd d else d),
   ⟨(c.filter q.matches).length, ((c.filter q.matches).map (modified upd)).sum⟩)

/-- Collection method `deleteOne(filter)`: the remaining documents and `deletedCount`. -/
def deleteOne : List Doc → Filter → List Doc × Nat
  | [], _ => ([], 0)
  | d :: rest, q =>
    if q.matches d then (rest, 1)
    else ((d :: (deleteOne rest q).1), (deleteOne rest q).2)

/-- State of the database `Resell-Bd`, with the next identifier the driver hands out. -/
structure Store where
  users : List Doc
  products : List Doc
  orders : List Doc
  nextId : ObjectId
  deriving DecidableEq, Repr

/-! ## Numbers of the payment route

`parseInt(price * 100)` on a price that is a non-negative integer.  A number is
a double: an integer is held exactly only when its significand fits 53 bits.
`parseInt` first converts its argument to a string.
-/

/-- Non-negative JavaScript number with an integral value, or one of the two special values. -/
inductive Num where
  | fin (n : Nat)
  | inf
  | nan
  deriving DecidableEq, Repr

/-- Position of the highest set bit plus one (0 for 0), by halving at most `fuel` times. -/
def bitLength : Nat → Nat → Nat
  | 0, _ => 0
  | fuel + 1, n => if n = 0 then 0 else bitLength fuel (n / 2) + 1

/-- Nearest double of a natural number, ties to even; overflow gives infinity. -/
def toDouble (n : Nat) : Num :=
  if n < 2 ^ 53 then .fin n
  else
    let e := bitLength 1100 n - 53
    let q := n / 2 ^ e
    let r := n % 2 ^ e
    let half := 2 ^ (e - 1)
    let q' := if r < half then q else if half < r then q + 1 else if q % 2 = 0 then q else q + 1
    if 1024 < bitLength 1100 (q' * 2 ^ e) then .inf else .fin (q' * 2 ^ e)

/-- The product `x * 100` of a number with the literal 100. -/
def times100 : Num → Num
  | .fin n => toDouble (n * 100)
  | .inf => .inf
  | .nan => .nan

/-- Decimal digit as a character. -/
def digitChar (d : Nat) : Char := Char.ofNat (48 + d)

/-- Value of a decimal digit character. -/
def digitValue (c : Char) : Nat := c.toNat - 48

/-- Decimal digits of `n` pushed in front of `acc`, most significant first. -/
def decimalAux : Nat → Nat → List Char → List Char
  | 0, _, acc => acc
  | fuel + 1, n, acc =>
    if n < 10 then digitChar n :: acc
    else decimalAux fuel (n / 10) (digitChar (n % 10) :: acc)

/-- Decimal representation of a natural number. -/
def decimal (n : Nat) : List Char := decimalAux (n + 1) n []

/-- Number of decimal digits of `n` (1 for 0). -/
def digitCount : Nat → Nat → Nat
  | 0, _ => 1
  | fuel + 1, n => if n < 10 then 1 else digitCount fuel (n / 10) + 1

/-- Search of `Number::toString` for the fewest digits: the least `k` with a `k`-digit `s`
such that `s * 10 ^ (n - k)` is read back as `x`; the closer candidate wins, the even one on
a tie.  Returns `(s, k, n)`; `d` is the number of digits of `x`. -/
def shortestAux (x d : Nat) : Nat → Nat → Nat × Nat × Nat
  | 0, _ => (x, d, d)
  | fuel + 1, k =>
    let p := 10 ^ (d - k)
    let lo := x / p
    let hi := lo + 1
    let okLo := decide (toDouble (lo * p) = .fin x)
    let okHi := decide (toDouble (hi * p) = .fin x)
    let useLo := okLo && (!okHi || decide (x - lo * p < hi * p - x)
      || (decide (x - lo * p = hi * p - x) && decide (lo % 2 = 0)))
    if useLo then (lo, k, d)
    else if okHi then (if hi = 10 ^ k then (1, 1, d + 1) else (hi, k, d))
    else shortestAux x d fuel (k + 1)

/-- The triple `(s, k, n)` of `Number::toString` for a positive integral double `x`. -/
def shortest (x : Nat) : Nat × Nat × Nat :=
  shortestAux x (digitCount x x) (digitCount x x) 1

/-- String conversion of a number, radix 10 (`Number::toString`). -/
def numberToString : Num → List Char
  | .nan => ['N', 'a', 'N']
  | .inf => ['I', 'n', 'f', 'i', 'n', 'i', 't', 'y']
  | .fin x =>
    if x = 0 then ['0']
    else
      let r := shortest x
      let ds := decimal r.1
      if r.2.2 ≤ 21 then ds ++ List.replicate (r.2.2 - r.2.1) '0'
      else
        match ds with
        | [] => []
        | c :: rest =>
          (if rest = [] then [c] else c :: '.' :: rest) ++ ['e', '+'] ++ decimal (r.2.2 - 1)

/-- Value of a string of decimal digits. -/
def parseDigits (cs : List Char) : Nat :=
  cs.foldl (fun acc c => acc * 10 + digitValue c) 0

/-- Global function `parseInt(string)` with the default radix, on a string that starts with
neither white space, a sign nor `0x` (no string conversion of a non-negative number does):
the longest run of leading digits, `NaN` when there is none. -/
def parseInt (s : List Char) : Num :=
  if s.takeWhile Char.isDigit = [] then .nan
  else toDouble (parseDigits (s.takeWhile Char.isDigit))

/-- Parameters of `stripe.paymentIntents.create`. -/
structure IntentParams where
  amount : Num
  currency : String
  payment_method_types : List String
  deriving DecidableEq, Repr

/-! ## Handlers -/

/-- Collections of the database. -/
inductive Coll where
  | Users
  | Products
  | Orders
  deriving DecidableEq, Repr

/-- Call issued by a handler to the document store or to the payment provider. -/
inductive Call where
  | findOne (c : Coll)
  | find (c : Coll)
  | insertOne (c : Coll)
  | updateOne (c : Coll)
  | updateMany (c : Coll)
  | deleteOne (c : Coll)
  | paymentIntentsCreate (params : IntentParams)
  deriving DecidableEq, Repr

/-- Body passed to `res.send`. -/
inductive Reply where
  | insertResult (insertedId : DocId)
  | rejected (message : String)
  | documents (ds : List Doc)
  | document (d : Option Doc)
  | updateResult (r : UpdateResult)
  | deleteResult (deletedCount : Nat)
  | verifyCounts (userUpdated productsUpdated : Nat)
  | clientSecret (secret : String)
  | error (message : String)
  | text (message : String)
  deriving DecidableEq, Repr

/-- The `acknowledged` property of a reply, when it has one. -/
def Reply.acknowledged : Reply → Option Bool
  | .insertResult _ => some true
  | .rejected _ => some false
  | .updateResult _ => some true
  | .deleteResult _ => some true
  | _ => none

/-- What a handler did with the response: sent it with a status, or threw. -/
inductive Result where
  | sent (status : Nat) (body : Reply)
  | uncaught (error : String)
  deriving DecidableEq, Repr

/-- The `acknowledged` property of the body a handler sent; `none` when it threw. -/
def Result.acknowledged : Result → Option Bool
  | .sent _ body => body.acknowledged
  | .uncaught _ => none

/-- HTTP status of the response; `none` when the handler threw. -/
def Result.status : Result → Option Nat
  | .sent status _ => some status
  | .uncaught _ => none

/-- Effect of one handler run. -/
structure Outcome where
  store : Store
  result : Result
  calls : List Call
  deriving DecidableEq, Repr

/-- Route `POST /products`. -/
def createProduct (s : Store) (body : Fields) : Outcome :=
  let seller := findOne s.users (.byFields [("email", bson (getField body "sellerEmail"))])
  let product := setField body "verified"
    (jsOr (seller.bind (fun u => getField u.fields "verified")) (.bool false))
  match insertOne s.products s.nextId product with
  | .ok r =>
    { store := { s with products := r.1, nextId := s.nextId + 1 }
      result := .sent 200 (.insertResult r.2)
      calls := [.findOne .Users, .insertOne .Products] }
  | .error e =>
    { store := s, result := .uncaught e, calls := [.findOne .Users, .insertOne .Products] }

/-- Route `GET /products`; the query parameter `category` is absent or one string. -/
def listProducts (s : Store) (category : Option String) : Outcome :=
  let query := match category with
    | some c => if c ≠ "" then Filter.byFields [("category", .str c)] else Filter.all
    | none => Filter.all
  { store := s, result := .sent 200 (.documents (find s.products query)), calls := [.find .Products] }

/-- Route `POST /orders`; `now` is the value of `new Date()`. -/
def createOrder (s : Store) (body : Fields) (now : Int) : Outcome :=
  let exists? := findOne s.orders (.byFields
    [("buyerEmail", bson (getField body "buyerEmail")),
     ("productName", bson (getField body "productName"))])
  if exists?.isSome then
    { store := s, result := .sent 200 (.rejected "Already ordered this product!")
      calls := [.findOne .Orders] }
  else
    let newOrder := setField (setField body "status" (.str "Pending")) "createdAt" (.date now)
    match insertOne s.orders s.nextId newOrder with
    | .ok r =>
      { store := { s with orders := r.1, nextId := s.nextId + 1 }
        result := .sent 200 (.insertResult r.2)
        calls := [.findOne .Orders, .insertOne .Orders] }
    | .error e =>
      { store := s, result := .uncaught e, calls := [.findOne .Orders, .insertOne .Orders] }

/-- Route `GET /orders`; the query parameter `email` is absent or one string. -/
def listOrders (s : Store) (email : Option String) : Outcome :=
  match email with
  | none => { store := s, result := .sent 400 (.error "Email is required"), calls := [] }
  | some e =>
    if e = "" then { store := s, result := .sent 400 (.error "Email is required"), calls := [] }
    else
      { store := s
        result := .sent 200 (.documents (find s.orders (.byFields [("buyerEmail", .str e)])))
        calls := [.find .Orders] }

/-- Route `GET /orders/:id`. -/
def getOrder (s : Store) (id : ObjectId) : Outcome :=
  { store := s, result := .sent 200 (.document (findOne s.orders (.byId id)))
    calls := [.findOne .Orders] }

/-- Route `GET /admin/orders`. -/
def adminOrders (s : Store) : Outcome :=
  { store := s, result := .sent 200 (.documents (find s.orders .all)), calls := [.find .Orders] }

/-- Route `DELETE /orders/:id`. -/
def deleteOrder (s : Store) (id : ObjectId) : Outcome :=
  let r := deleteOne s.orders (.byId id)
  { store := { s with orders := r.1 }, result := .sent 200 (.deleteResult r.2)
    calls := [.deleteOne .Orders] }

/-- Route `POST /users`. -/
def createUser (s : Store) (body : Fields) : Outcome :=
  let existingUser := findOne s.users (.byFields [("email", bson (getField body "email"))])
  if existingUser.isSome then
    { store := s, result := .sent 200 (.rejected "User already exists")
      calls := [.findOne .Users] }
  else
    match insertOne s.users s.nextId body with
    | .ok r =>
      { store := { s with users := r.1, nextId := s.nextId + 1 }
        result := .sent 200 (.insertResult r.2)
        calls := [.findOne .Users, .insertOne .Users] }
    | .error e =>
      { store := s, result := .uncaught e, calls := [.findOne .Users, .insertOne .Users] }

/-- Route `GET /users`; the query parameter `email` is absent or one string. -/
def listUsers (s : Store) (email : Option String) : Outcome :=
  let query := match email with
    | some e => if e ≠ "" then Filter.byFields [("email", .str e)] else Filter.all
    | none => Filter.all
  { store := s, result := .sent 200 (.documents (find s.users query)), calls := [.find .Users] }

/-- Route `PUT /users/admin/:id`. -/
def makeAdmin (s : Store) (id : ObjectId) : Outcome :=
  let r := updateOne s.users (.byId id) [("role", .str "admin")]
  { store := { s with users := r.1 }, result := .sent 200 (.updateResult r.2)
    calls := [.updateOne .Users] }

/-- Route `PUT /users/verify/:id`.  Reading `user.email` of an absent user throws while the
filter of `updateMany` is built, after the user update has been awaited. -/
def verifyUser (s : Store) (id : ObjectId) : Outcome :=
  let user := findOne s.users (.byId id)
  let userUpdate := updateOne s.users (.byId id) [("verified", .bool true)]
  match user with
  | none =>
    { store := { s with users := userUpdate.1 }
      result := .uncaught "TypeError: Cannot read properties of null (reading 'email')"
      calls := [.findOne .Users, .updateOne .Users] }
  | some u =>
    let productUpdate := updateMany s.products
      (.byFields [("sellerEmail", bson (getField u.fields "email"))]) [("verified", .bool true)]
    { store := { s with users := userUpdate.1, products := productUpdate.1 }
      result := .sent 200
        (.verifyCounts userUpdate.2.modifiedCount productUpdate.2.modifiedCount)
      calls := [.findOne .Users, .updateOne .Users, .updateMany .Products] }

/-- Route `DELETE /users/:id`. -/
def deleteUser (s : Store) (id : ObjectId) : Outcome :=
  let r := deleteOne s.users (.byId id)
  { store := { s with users := r.1 }, result := .sent 200 (.deleteResult r.2)
    calls := [.deleteOne .Users] }

/-- Route `POST /create-payment-intent` for a body whose `price` is a non-negative integer
literal; `clientSecret` is the `client_secret` of the intent the provider answers with. -/
def createPaymentIntent (s : Store) (price : Nat) (clientSecret : String) : Outcome :=
  let amount := parseInt (numberToString (times100 (toDouble price)))
  { store := s, result := .sent 200 (.clientSecret clientSecret)
    calls := [.paymentIntentsCreate ⟨amount, "bdt", ["card"]⟩] }

/-- Route `PUT /orders/paid/:id`. -/
def markPaid (s : Store) (id : ObjectId) (body : Fields) : Outcome :=
  let r := updateOne s.orders (.byId id)
    [("status", .str "Paid"), ("transactionId", bson (getField body "transactionId"))]
  { store := { s with orders := r.1 }, result := .sent 200 (.updateResult r.2)
    calls := [.updateOne .Orders] }

/-- Route `GET /`. -/
def root (s : Store) : Outcome :=
  { store := s, result := .sent 200 (.text "✅ Resell BD API is running"), calls := [] }

/-- One request to the server. -/
inductive Request where
  | createProduct (body : Fields)
  | listProducts (category : Option String)
  | createOrder (body : Fields) (now : Int)
  | listOrders (email : Option String)
  | getOrder (id : ObjectId)
  | adminOrders
  | deleteOrder (id : ObjectId)
  | createUser (body : Fields)
  | listUsers (email : Option String)
  | makeAdmin (id : ObjectId)
  | verifyUser (id : ObjectId)
  | deleteUser (id : ObjectId)
  | createPaymentIntent (price : Nat) (clientSecret : String)
  | markPaid (id : ObjectId) (body : Fields)
  | root
  deriving Repr

/-- Sequential request handling: the handler of the route runs to completion on the store. -/
def handle (s : Store) : Request → Outcome
  | .createProduct body => createProduct s body
  | .listProducts category => listProducts s category
  | .createOrder body now => createOrder s body now
  | .listOrders email => listOrders s email
  | .getOrder id => getOrder s id
  | .adminOrders => adminOrders s
  | .deleteOrder id => deleteOrder s id
  | .createUser body => createUser s body
  | .listUsers email => listUsers s email
  | .makeAdmin id => makeAdmin s id
  | .verifyUser id => verifyUser s id
  | .deleteUser id => deleteUser s id
  | .createPaymentIntent price clientSecret => createPaymentIntent s price clientSecret
  | .markPaid id body => markPaid s id body
  | .root => root s

/-- Store reached from `s` by handling the requests one after the other. -/
def run (s : Store) (rs : List Request) : Store :=
  rs.foldl (fun st r => (handle st r).store) s

/-! ## Stated predicates -/

/-- Email of a user as the store compares it (a missing email compares as null). -/
def emailOf (u : Doc) : Value := bson (getField u.fields "email")

/-- Seller email a product body is looked up with. -/
def sellerEmailOf (f : Fields) : Value := bson (getField f "sellerEmail")

/-- De-duplication key of an order: the pair (buyerEmail, productName) as the store compares
it. -/
def orderKey (f : Fields) : Value × Value :=
  (bson (getField f "buyerEmail"), bson (getField f "productName"))

/-- No two orders of the store share a (buyerEmail, productName) pair. -/
def OrdersUnique (s : Store) : Prop :=
  s.orders.Pairwise (fun a b => orderKey a.fields ≠ orderKey b.fields)

/-- No two users of the store share an email. -/
def UsersUnique (s : Store) : Prop :=
  s.users.Pairwise (fun a b => emailOf a ≠ emailOf b)

/-- Guarantee of the store on one collection: the `_id`s are pairwise distinct, and the
driver handed each generated one out before the identifier `n`. -/
def CollOk (c : List Doc) (n : ObjectId) : Prop :=
  (c.map Doc.oid).Nodup ∧ ∀ i, DocId.generated i ∈ c.map Doc.oid → i < n

/-- The insert of the document `f` into `c` is accepted: the `_id` it brings, if any, is the
`_id` of no stored document. -/
def IdAccepted (c : List Doc) (f : Fields) : Prop :=
  ∀ v, givenId f = some v → ∀ d ∈ c, d.oid ≠ .given v

/-- The `_id` under which an accepted insert of `f` is stored. -/
def storedId (fresh : ObjectId) (f : Fields) : DocId :=
  match givenId f with
  | none => .generated fresh
  | some v => .given v

/-- Guarantee of the store on the three collections. -/
def WellFormed (s : Store) : Prop :=
  CollOk s.users s.nextId ∧ CollOk s.products s.nextId ∧ CollOk s.orders s.nextId

/-- The document `u` is the first of `c`, in collection order, that satisfies `p`. -/
def FirstWith (p : Doc → Prop) (c : List Doc) (u : Doc) : Prop :=
  ∃ pre post, c = pre ++ u :: post ∧ (∀ w ∈ pre, ¬ p w) ∧ p u

/-- Whether a number is held exactly by a double. -/
def Exact (n : Nat) : Prop := toDouble n = .fin n

/-! ## Sample stores and bodies -/

/-- The store before any request. -/
def emptyStore : Store := { users := [], products := [], orders := [], nextId := 0 }

/-- Order body that carries a status and a creation date of its own. -/
def paidOrderBody : Fields :=
  [("buyerEmail", .str "b@x"), ("productName", .str "phone"), ("status", .str "Paid"),
   ("createdAt", .num 7)]

/-- Store with one order of the product "phone", placed by another buyer. -/
def oneOrder : Store :=
  { users := [], products := []
    orders := [⟨.generated 0, [("buyerEmail", .str "c@x"), ("productName", .str "phone"),
      ("status", .str "Pending"), ("createdAt", .date 1)]⟩]
    nextId := 1 }

/-- Store with one user, already known under the email of `userBody`. -/
def oneUser : Store :=
  { users := [⟨.generated 0, [("email", .str "a@x")]⟩], products := [], orders := [], nextId := 1 }

/-- User body for the email "a@x". -/
def userBody : Fields := [("email", .str "a@x"), ("name", .str "A")]

/-- Store with a verified seller and one product of theirs, created after the
verification and therefore stamped verified = true. -/
def verifiedSeller : Store :=
  { users := [⟨.generated 0, [("email", .str "a@x"), ("verified", .bool true)]⟩]
    products := [⟨.generated 1, [("sellerEmail", .str "a@x"), ("category", .str "phone"),
      ("verified", .bool true)]⟩]
    orders := [], nextId := 2 }

/-- Store with an unverified seller and two products of theirs. -/
def newSeller : Store :=
  { users := [⟨.generated 0, [("email", .str "a@x")]⟩]
    products := [⟨.generated 1, [("sellerEmail", .str "a@x"), ("verified", .bool false)]⟩,
                 ⟨.generated 2, [("sellerEmail", .str "z@x"), ("verified", .bool false)]⟩,
                 ⟨.generated 3, [("sellerEmail", .str "a@x"), ("verified", .bool false)]⟩]
    orders := [], nextId := 4 }

/-- Store with two orders, the first already paid under another transaction. -/
def twoOrders : Store :=
  { users := [], products := []
    orders := [⟨.generated 0, [("buyerEmail", .str "c@x"), ("productName", .str "phone"),
      ("status", .str "Paid"), ("transactionId", .str "tx_old")]⟩,
      ⟨.generated 1, [("buyerEmail", .str "b@x"), ("productName", .str "phone"),
      ("status", .str "Pending")]⟩]
    nextId := 2 }

/-- Store reached from the empty one by the order of "c@x" for "phone", sent with the
`_id` "k". -/
def keyedOrderStore : Store :=
  { users := [], products := []
    orders := [⟨.given (.str "k"), [("buyerEmail", .str "c@x"), ("productName", .str "phone"),
      ("status", .str "Pending"), ("createdAt", .date 1)]⟩]
    nextId := 1 }

/-- Order body of another buyer for the same product, sent with the same `_id` "k". -/
def keyedOrderBody : Fields :=
  [("_id", .str "k"), ("buyerEmail", .str "b@x"), ("productName", .str "phone")]

/-- Store reached from the empty one by the signup of a verified seller and a product of
theirs sent with the `_id` "k". -/
def keyedProductStore : Store :=
  { users := [⟨.generated 0, [("email", .str "a@x"), ("verified", .bool true)]⟩]
    products := [⟨.given (.str "k"), [("sellerEmail", .str "a@x"), ("verified", .bool true)]⟩]
    orders := [], nextId := 2 }

/-- Product body of the same seller, sent with the same `_id` "k". -/
def keyedProductBody : Fields :=
  [("_id", .str "k"), ("sellerEmail", .str "a@x"), ("category", .str "phone")]

/-! ## Lemmas on fields and collections -/

theorem getField_setField_same (f : Fields) (k : String) (v : Value) :
    getField (setField f k v) k = some v := by
  induction f with
  | nil => simp [setField, getField]
  | cons p rest ih =>
    obtain ⟨k', v'⟩ := p
    by_cases h : k' = k
    · simp [setField, getField, h]
    · simp [setField, getField, h, ih]

theorem getField_setField_ne (f : Fields) (k k' : String) (v : Value) (h : k' ≠ k) :
    getField (setField f k v) k' = getField f k' := by
  induction f with
  | nil => simp [setField, getField, Ne.symm h]
  | cons p rest ih =>
    obtain ⟨k0, v0⟩ := p
    by_cases h0 : k0 = k
    · subst h0
      simp [setField, getField, Ne.symm h]
    · by_cases h1 : k0 = k'
      · subst h1
        simp [setField, getField, h0]
      · simp [setField, getField, h0, h1, ih]

theorem setField_eq_self_iff (f : Fields) (k : String) (v : Value) :
    setField f k v = f ↔ getField f k = some v := by
  induction f with
  | nil => simp [setField, getField]
  | cons p rest ih =>
    obtain ⟨k0, v0⟩ := p
    by_cases h0 : k0 = k
    · subst h0
      simp [setField, getField, eq_comm]
    · simp [setField, getField, h0, ih]

theorem byFields_one_matches (d : Doc) (k : String) (q : Value) :
    (Filter.byFields [(k, q)]).matches d = true ↔ bson (getField d.fields k) = q := by
  simp [Filter.matches, fieldMatches]

theorem byFields_two_matches (d : Doc) (k1 k2 : String) (q1 q2 : Value) :
    (Filter.byFields [(k1, q1), (k2, q2)]).matches d = true ↔
      bson (getField d.fields k1) = q1 ∧ bson (getField d.fields k2) = q2 := by
  simp [Filter.matches, fieldMatches]

theorem orderFilter_matches (d : Doc) (body : Fields) :
    (Filter.byFields [("buyerEmail", bson (getField body "buyerEmail")),
      ("productName", bson (getField body "productName"))]).matches d = true ↔
      orderKey d.fields = orderKey body := by
  rw [byFields_two_matches]
  simp [orderKey, Prod.ext_iff]

theorem findOne_isSome_iff (c : List Doc) (q : Filter) :
    (findOne c q).isSome = true ↔ ∃ d ∈ c, q.matches d = true := by
  simp [findOne, List.find?_isSome]

theorem findOne_eq_none_iff (c : List Doc) (q : Filter) :
    findOne c q = none ↔ ∀ d ∈ c, q.matches d = false := by
  simp [findOne, List.find?_eq_none]

theorem findOne_eq_some_of_firstWith (c : List Doc) (q : Filter) (u : Doc)
    (h : FirstWith (fun d => q.matches d = true) c u) : findOne c q = some u := by
  obtain ⟨pre, post, hc, hpre, hu⟩ := h
  subst hc
  induction pre with
  | nil => simp [findOne, List.find?, hu]
  | cons w pre ih =>
    have hw : q.matches w = false := by simpa using hpre w (by simp)
    have := ih (fun x hx => hpre x (by simp [hx]))
    simpa [findOne, List.find?, hw] using this

theorem findOne_byId_of_nodup (c : List Doc) (u : Doc) (id : ObjectId) (hmem : u ∈ c)
    (hid : u.oid = .generated id) (hnd : (c.map Doc.oid).Nodup) :
    findOne c (.byId id) = some u := by
  induction c with
  | nil => simp at hmem
  | cons d rest ih =>
    simp only [List.map_cons, List.nodup_cons] at hnd
    rcases List.mem_cons.mp hmem with h | h
    · subst h
      simp [findOne, List.find?, Filter.matches, hid]
    · have hne : d.oid ≠ .generated id := by
        intro he
        exact hnd.1 (he ▸ hid ▸ List.mem_map_of_mem Doc.oid h)
      have := ih h hnd.2
      simpa [findOne, List.find?, Filter.matches, hne] using this

theorem updateOne_no_match (c : List Doc) (q : Filter) (upd : Fields)
    (h : ∀ d ∈ c, q.matches d = false) : updateOne c q upd = (c, ⟨0, 0⟩) := by
  induction c with
  | nil => rfl
  | cons d rest ih =>
    have hd : q.matches d = false := h d (by simp)
    have := ih (fun x hx => h x (by simp [hx]))
    simp [updateOne, hd, this]

theorem updateOne_map_oid (c : List Doc) (q : Filter) (upd : Fields) :
    (updateOne c q upd).1.map Doc.oid = c.map Doc.oid := by
  induction c with
  | nil => rfl
  | cons d rest ih =>
    by_cases hd : q.matches d = true
    · simp [updateOne, hd, applySet]
    · simp [updateOne, hd, ih]

theorem updateOne_byId_nodup (c : List Doc) (id : ObjectId) (upd : Fields)
    (hnd : (c.map Doc.oid).Nodup) :
    (updateOne c (.byId id) upd).1 =
      c.map (fun d => if d.oid = .generated id then applySet upd d else d) := by
  induction c with
  | nil => rfl
  | cons d rest ih =>
    simp only [List.map_cons, List.nodup_cons] at hnd
    by_cases hd : d.oid = .generated id
    · have hrest : rest.map (fun x => if x.oid = .generated id then applySet upd x else x)
          = rest := by
        conv_rhs => rw [← List.map_id rest]
        apply List.map_congr_left
        intro x hx
        have hne : x.oid ≠ .generated id := by
          intro he
          exact hnd.1 (hd ▸ he ▸ List.mem_map_of_mem Doc.oid hx)
        simp [hne]
      simp [updateOne, Filter.matches, hd, hrest]
    · simp [updateOne, Filter.matches, hd, ih hnd.2]

theorem updateOne_map_of_invariant {β : Type} (f : Doc → β) (c : List Doc) (q : Filter)
    (upd : Fields) (hf : ∀ d, f (applySet upd d) = f d) :
    (updateOne c q upd).1.map f = c.map f := by
  induction c with
  | nil => rfl
  | cons d rest ih =>
    by_cases hd : q.matches d = true
    · simp [updateOne, hd, hf]
    · simp [updateOne, hd, ih]

theorem deleteOne_sublist (c : List Doc) (q : Filter) : (deleteOne c q).1.Sublist c := by
  induction c with
  | nil => exact List.Sublist.refl _
  | cons d rest ih =>
    by_cases hd : q.matches d = true
    · simp [deleteOne, hd]
    · simp [deleteOne, hd, ih]

theorem sum_map_modified (c : List Doc) (p : Doc → Bool) (upd : Fields) :
    ((c.filter p).map (modified upd)).sum =
      (c.filter (fun d => p d && decide (applySet upd d ≠ d))).length := by
  induction c with
  | nil => rfl
  | cons d rest ih =>
    by_cases hd : p d = true
    · by_cases hm : applySet upd d = d
      · simp [List.filter_cons, hd, hm, modified, ih]
      · simp [List.filter_cons, hd, hm, modified, ih, Nat.add_comm]
    · simp [List.filter_cons, hd, ih]

theorem applySet_verified (d : Doc) :
    applySet [("verified", .bool true)] d = ⟨d.oid, setField d.fields "verified" (.bool true)⟩ :=
  rfl

theorem applySet_verified_eq_self_iff (d : Doc) :
    applySet [("verified", .bool true)] d = d ↔
      getField d.fields "verified" = some (.bool true) := by
  rw [applySet_verified, ← setField_eq_self_iff]
  cases d
  simp

theorem orderKey_applySet_paid (t : Value) (d : Doc) :
    orderKey (applySet [("status", .str "Paid"), ("transactionId", t)] d).fields =
      orderKey d.fields := by
  simp [applySet, orderKey, getField_setField_ne]

theorem ordersUnique_iff (s : Store) :
    OrdersUnique s ↔ (s.orders.map (fun d => orderKey d.fields)).Pairwise (fun a b => a ≠ b) := by
  unfold OrdersUnique
  rw [List.pairwise_map]

theorem firstWith_of_usersUnique (s : Store) (u : Doc) (q : Value) (hs : UsersUnique s)
    (hu : u ∈ s.users) (he : emailOf u = q) :
    FirstWith (fun w => emailOf w = q) s.users u := by
  obtain ⟨pre, post, hc⟩ := List.append_of_mem hu
  refine ⟨pre, post, hc, ?_, he⟩
  intro w hw hwq
  unfold UsersUnique at hs
  rw [hc, List.pairwise_append] at hs
  exact hs.2.2 w hw u (by simp) (hwq.trans he.symm)

/-! ## Inserts -/

theorem getField_eraseField_ne (f : Fields) (k k0 : String) (h : k ≠ k0) :
    getField (eraseField f k0) k = getField f k := by
  induction f with
  | nil => rfl
  | cons p rest ih =>
    obtain ⟨k1, v1⟩ := p
    by_cases h1 : k1 = k0
    · subst h1
      have hne : ¬ k1 = k := fun he => h he.symm
      simpa [eraseField, getField, hne] using ih
    · by_cases h2 : k1 = k
      · subst h2
        simp [eraseField, List.filter_cons, getField, h1]
      · simpa [eraseField, List.filter_cons, getField, h1, h2] using ih

theorem givenId_setField (f : Fields) (k : String) (v : Value) (h : k ≠ "_id") :
    givenId (setField f k v) = givenId f := by
  unfold givenId
  rw [getField_setField_ne _ _ _ _ (Ne.symm h)]

theorem idAccepted_setField (c : List Doc) (f : Fields) (k : String) (v : Value)
    (h : k ≠ "_id") : IdAccepted c (setField f k v) ↔ IdAccepted c f := by
  unfold IdAccepted
  rw [givenId_setField f k v h]

theorem storedId_setField (n : ObjectId) (f : Fields) (k : String) (v : Value)
    (h : k ≠ "_id") : storedId n (setField f k v) = storedId n f := by
  unfold storedId
  rw [givenId_setField f k v h]

theorem idAccepted_of_no_id (c : List Doc) (f : Fields) (h : givenId f = none) :
    IdAccepted c f := by
  intro v hv
  rw [h] at hv
  exact Option.noConfusion hv

theorem insertOne_accepted (c : List Doc) (n : ObjectId) (f : Fields) (h : IdAccepted c f) :
    insertOne c n f =
      .ok (c ++ [⟨storedId n f, eraseField f "_id"⟩], storedId n f) := by
  unfold insertOne storedId
  cases hg : givenId f with
  | none => rfl
  | some v =>
    have hany : c.any (fun d => decide (d.oid = .given v)) = false := by
      rw [Bool.eq_false_iff, Ne, List.any_eq_true]
      rintro ⟨d, hd, he⟩
      exact h v hg d hd (of_decide_eq_true he)
    simp [hany]

theorem insertOne_rejected (c : List Doc) (n : ObjectId) (f : Fields) (h : ¬ IdAccepted c f) :
    insertOne c n f = .error duplicateKey := by
  unfold IdAccepted at h
  push_neg at h
  obtain ⟨v, hg, d, hd, he⟩ := h
  have hany : c.any (fun d => decide (d.oid = .given v)) = true := by
    rw [List.any_eq_true]
    exact ⟨d, hd, decide_eq_true he⟩
  unfold insertOne
  simp [hg, hany]

theorem createProduct_accepted (s : Store) (body : Fields) (h : IdAccepted s.products body) :
    createProduct s body =
      { store := { s with
          products := s.products ++ [⟨storedId s.nextId body,
            eraseField (setField body "verified" (jsOr ((findOne s.users
              (.byFields [("email", bson (getField body "sellerEmail"))])).bind
                (fun u => getField u.fields "verified")) (.bool false))) "_id"⟩]
          nextId := s.nextId + 1 }
        result := .sent 200 (.insertResult (storedId s.nextId body))
        calls := [.findOne .Users, .insertOne .Products] } := by
  unfold createProduct
  dsimp only
  rw [insertOne_accepted _ _ _ ((idAccepted_setField _ _ _ _ (by decide)).mpr h),
    storedId_setField _ _ _ _ (by decide)]

theorem createProduct_rejected (s : Store) (body : Fields) (h : ¬ IdAccepted s.products body) :
    createProduct s body =
      { store := s, result := .uncaught duplicateKey
        calls := [.findOne .Users, .insertOne .Products] } := by
  unfold createProduct
  dsimp only
  rw [insertOne_rejected _ _ _ (fun h' => h ((idAccepted_setField _ _ _ _ (by decide)).mp h'))]

theorem createOrder_found (s : Store) (body : Fields) (now : Int)
    (h : ∃ o ∈ s.orders, orderKey o.fields = orderKey body) :
    createOrder s body now =
      { store := s, result := .sent 200 (.rejected "Already ordered this product!")
        calls := [.findOne .Orders] } := by
  have hsome : (findOne s.orders (.byFields
      [("buyerEmail", bson (getField body "buyerEmail")),
       ("productName", bson (getField body "productName"))])).isSome = true := by
    rw [findOne_isSome_iff]
    obtain ⟨o, ho, hk⟩ := h
    exact ⟨o, ho, (orderFilter_matches o body).mpr hk⟩
  simp [createOrder, hsome]

theorem createOrder_not_found (s : Store) (body : Fields)
    (h : ∀ o ∈ s.orders, orderKey o.fields ≠ orderKey body) :
    (findOne s.orders (.byFields
      [("buyerEmail", bson (getField body "buyerEmail")),
       ("productName", bson (getField body "productName"))])).isSome = false := by
  rw [Bool.eq_false_iff, Ne, findOne_isSome_iff]
  rintro ⟨o, ho, hm⟩
  exact h o ho ((orderFilter_matches o body).mp hm)

theorem createOrder_accepted (s : Store) (body : Fields) (now : Int)
    (h : ∀ o ∈ s.orders, orderKey o.fields ≠ orderKey body) (hid : IdAccepted s.orders body) :
    createOrder s body now =
      { store := { s with
          orders := s.orders ++ [⟨storedId s.nextId body,
            eraseField (setField (setField body "status" (.str "Pending")) "createdAt"
              (.date now)) "_id"⟩]
          nextId := s.nextId + 1 }
        result := .sent 200 (.insertResult (storedId s.nextId body))
        calls := [.findOne .Orders, .insertOne .Orders] } := by
  have hacc : IdAccepted s.orders
      (setField (setField body "status" (.str "Pending")) "createdAt" (.date now)) :=
    (idAccepted_setField _ _ _ _ (by decide)).mpr
      ((idAccepted_setField _ _ _ _ (by decide)).mpr hid)
  unfold createOrder
  dsimp only
  rw [createOrder_not_found s body h, insertOne_accepted _ _ _ hacc,
    storedId_setField _ _ _ _ (by decide), storedId_setField _ _ _ _ (by decide)]
  rfl

theorem createOrder_rejected (s : Store) (body : Fields) (now : Int)
    (h : ∀ o ∈ s.orders, orderKey o.fields ≠ orderKey body) (hid : ¬ IdAccepted s.orders body) :
    createOrder s body now =
      { store := s, result := .uncaught duplicateKey
        calls := [.findOne .Orders, .insertOne .Orders] } := by
  have hrej : ¬ IdAccepted s.orders
      (setField (setField body "status" (.str "Pending")) "createdAt" (.date now)) :=
    fun h' => hid ((idAccepted_setField _ _ _ _ (by decide)).mp
      ((idAccepted_setField _ _ _ _ (by decide)).mp h'))
  unfold createOrder
  dsimp only
  rw [createOrder_not_found s body h, insertOne_rejected _ _ _ hrej]
  rfl

theorem orderKey_newOrder (body : Fields) (now : Int) :
    orderKey (eraseField (setField (setField body "status" (.str "Pending")) "createdAt"
      (.date now)) "_id") = orderKey body := by
  unfold orderKey
  rw [getField_eraseField_ne _ _ _ (by decide), getField_eraseField_ne _ _ _ (by decide)]
  simp [getField_setField_ne]

theorem createUser_found (s : Store) (body : Fields)
    (h : ∃ u ∈ s.users, emailOf u = bson (getField body "email")) :
    createUser s body =
      { store := s, result := .sent 200 (.rejected "User already exists")
        calls := [.findOne .Users] } := by
  have hsome : (findOne s.users
      (.byFields [("email", bson (getField body "email"))])).isSome = true := by
    rw [findOne_isSome_iff]
    obtain ⟨u, hu, he⟩ := h
    exact ⟨u, hu, (byFields_one_matches u _ _).mpr he⟩
  simp [createUser, hsome]

theorem createUser_not_found (s : Store) (body : Fields)
    (h : ¬ ∃ u ∈ s.users, emailOf u = bson (getField body "email")) :
    (findOne s.users (.byFields [("email", bson (getField body "email"))])).isSome = false := by
  rw [Bool.eq_false_iff, Ne, findOne_isSome_iff]
  rintro ⟨u, hu, hm⟩
  exact h ⟨u, hu, (byFields_one_matches u _ _).mp hm⟩

theorem createUser_accepted (s : Store) (body : Fields)
    (h : ¬ ∃ u ∈ s.users, emailOf u = bson (getField body "email"))
    (hid : IdAccepted s.users body) :
    createUser s body =
      { store := { s with
          users := s.users ++ [⟨storedId s.nextId body, eraseField body "_id"⟩]
          nextId := s.nextId + 1 }
        result := .sent 200 (.insertResult (storedId s.nextId body))
        calls := [.findOne .Users, .insertOne .Users] } := by
  unfold createUser
  dsimp only
  rw [createUser_not_found s body h, insertOne_accepted _ _ _ hid]
  rfl

theorem createUser_rejected (s : Store) (body : Fields)
    (h : ¬ ∃ u ∈ s.users, emailOf u = bson (getField body "email"))
    (hid : ¬ IdAccepted s.users body) :
    createUser s body =
      { store := s, result := .uncaught duplicateKey
        calls := [.findOne .Users, .insertOne .Users] } := by
  unfold createUser
  dsimp only
  rw [createUser_not_found s body h, insertOne_rejected _ _ _ hid]
  rfl

/-! ## Identifiers stay unique -/

theorem collOk_mono (c : List Doc) (n m : ObjectId) (h : CollOk c n) (hnm : n ≤ m) :
    CollOk c m :=
  ⟨h.1, fun i hi => lt_of_lt_of_le (h.2 i hi) hnm⟩

theorem collOk_insert (c : List Doc) (n : ObjectId) (f g : Fields) (h : CollOk c n)
    (hid : IdAccepted c f) : CollOk (c ++ [⟨storedId n f, g⟩]) (n + 1) := by
  unfold CollOk
  rw [List.map_append, List.map_singleton]
  constructor
  · rw [List.nodup_append]
    refine ⟨h.1, List.nodup_singleton _, ?_⟩
    intro i hi hn
    rw [List.mem_singleton] at hn
    subst hn
    obtain ⟨d, hd, hdi⟩ := List.mem_map.mp hi
    unfold storedId at hi hdi
    cases hg : givenId f with
    | none =>
      rw [hg] at hi
      exact Nat.lt_irrefl _ (h.2 _ hi)
    | some v =>
      rw [hg] at hdi
      exact hid v hg d hd hdi
  · intro i hi
    rcases List.mem_append.mp hi with hi | hi
    · exact Nat.lt_succ_of_lt (h.2 i hi)
    · rw [List.mem_singleton] at hi
      unfold storedId at hi
      cases hg : givenId f with
      | none =>
        rw [hg] at hi
        injection hi with hi
        subst hi
        exact Nat.lt_succ_self _
      | some v =>
        rw [hg] at hi
        exact DocId.noConfusion hi

theorem collOk_updateOne (c : List Doc) (n : ObjectId) (q : Filter) (upd : Fields)
    (h : CollOk c n) : CollOk (updateOne c q upd).1 n := by
  unfold CollOk
  rw [updateOne_map_oid]
  exact h

theorem updateMany_map_oid (c : List Doc) (q : Filter) (upd : Fields) :
    (updateMany c q upd).1.map Doc.oid = c.map Doc.oid := by
  unfold updateMany
  rw [List.map_map]
  apply List.map_congr_left
  intro d _
  by_cases hd : q.matches d = true <;> simp [hd, applySet]

theorem collOk_updateMany (c : List Doc) (n : ObjectId) (q : Filter) (upd : Fields)
    (h : CollOk c n) : CollOk (updateMany c q upd).1 n := by
  unfold CollOk
  rw [updateMany_map_oid]
  exact h

theorem collOk_deleteOne (c : List Doc) (n : ObjectId) (q : Filter) (h : CollOk c n) :
    CollOk (deleteOne c q).1 n := by
  have hsub : ((deleteOne c q).1.map Doc.oid).Sublist (c.map Doc.oid) :=
    (deleteOne_sublist c q).map Doc.oid
  exact ⟨h.1.sublist hsub, fun i hi => h.2 i (hsub.subset hi)⟩

theorem handle_wellFormed (s : Store) (r : Request) (h : WellFormed s) :
    WellFormed (handle s r).store := by
  obtain ⟨hu, hp, ho⟩ := h
  have hle : s.nextId ≤ s.nextId + 1 := Nat.le_succ _
  cases r with
  | createProduct b =>
    show WellFormed (createProduct s b).store
    by_cases hid : IdAccepted s.products b
    · rw [createProduct_accepted s b hid]
      exact ⟨collOk_mono _ _ _ hu hle, collOk_insert _ _ _ _ hp hid, collOk_mono _ _ _ ho hle⟩
    · rw [createProduct_rejected s b hid]
      exact ⟨hu, hp, ho⟩
  | listProducts c => exact ⟨hu, hp, ho⟩
  | createOrder b t =>
    show WellFormed (createOrder s b t).store
    by_cases hf : ∃ o ∈ s.orders, orderKey o.fields = orderKey b
    · rw [createOrder_found s b t hf]
      exact ⟨hu, hp, ho⟩
    · have hf' : ∀ o ∈ s.orders, orderKey o.fields ≠ orderKey b := fun o ho hk => hf ⟨o, ho, hk⟩
      by_cases hid : IdAccepted s.orders b
      · rw [createOrder_accepted s b t hf' hid]
        exact ⟨collOk_mono _ _ _ hu hle, collOk_mono _ _ _ hp hle, collOk_insert _ _ _ _ ho hid⟩
      · rw [createOrder_rejected s b t hf' hid]
        exact ⟨hu, hp, ho⟩
  | listOrders e =>
    show WellFormed (listOrders s e).store
    unfold listOrders
    split
    · exact ⟨hu, hp, ho⟩
    · split <;> exact ⟨hu, hp, ho⟩
  | getOrder id => exact ⟨hu, hp, ho⟩
  | adminOrders => exact ⟨hu, hp, ho⟩
  | deleteOrder id => exact ⟨hu, hp, collOk_deleteOne _ _ _ ho⟩
  | createUser b =>
    show WellFormed (createUser s b).store
    by_cases hf : ∃ u ∈ s.users, emailOf u = bson (getField b "email")
    · rw [createUser_found s b hf]
      exact ⟨hu, hp, ho⟩
    · by_cases hid : IdAccepted s.users b
      · rw [createUser_accepted s b hf hid]
        exact ⟨collOk_insert _ _ _ _ hu hid, collOk_mono _ _ _ hp hle, collOk_mono _ _ _ ho hle⟩
      · rw [createUser_rejected s b hf hid]
        exact ⟨hu, hp, ho⟩
  | listUsers e => exact ⟨hu, hp, ho⟩
  | makeAdmin id => exact ⟨collOk_updateOne _ _ _ _ hu, hp, ho⟩
  | verifyUser id =>
    show WellFormed (verifyUser s id).store
    unfold verifyUser
    dsimp only
    split
    · exact ⟨collOk_updateOne _ _ _ _ hu, hp, ho⟩
    · exact ⟨collOk_updateOne _ _ _ _ hu, collOk_updateMany _ _ _ _ hp, ho⟩
  | deleteUser id => exact ⟨collOk_deleteOne _ _ _ hu, hp, ho⟩
  | createPaymentIntent price secret => exact ⟨hu, hp, ho⟩
  | markPaid id b => exact ⟨hu, hp, collOk_updateOne _ _ _ _ ho⟩
  | root => exact ⟨hu, hp, ho⟩

theorem run_wellFormed (rs : List Request) : ∀ s : Store, WellFormed s →
    WellFormed (run s rs) := by
  induction rs with
  | nil => intro s h; exact h
  | cons r rs ih =>
    intro s h
    exact ih _ (handle_wellFormed s r h)

theorem emptyStore_wellFormed : WellFormed emptyStore := by
  unfold WellFormed CollOk
  simp [emptyStore]

/-! ## Emails stay unique under sequential handling -/

theorem usersUnique_iff (s : Store) :
    UsersUnique s ↔ (s.users.map emailOf).Pairwise (fun a b => a ≠ b) := by
  unfold UsersUnique
  rw [List.pairwise_map]

theorem createUser_usersUnique (s : Store) (body : Fields) (hu : UsersUnique s) :
    UsersUnique (createUser s body).store := by
  by_cases h : ∃ u ∈ s.users, emailOf u = bson (getField body "email")
  · rw [createUser_found s body h]
    exact hu
  · by_cases hid : IdAccepted s.users body
    · rw [createUser_accepted s body h hid]
      unfold UsersUnique at hu ⊢
      show List.Pairwise _ (s.users ++ [_])
      rw [List.pairwise_append]
      refine ⟨hu, List.pairwise_singleton _ _, ?_⟩
      intro a ha b hb
      rw [List.mem_singleton] at hb
      subst hb
      intro he
      apply h
      refine ⟨a, ha, ?_⟩
      rw [he]
      unfold emailOf
      rw [getField_eraseField_ne _ _ _ (by decide)]
    · rw [createUser_rejected s body h hid]
      exact hu

theorem handle_usersUnique (s : Store) (r : Request) (h : UsersUnique s) :
    UsersUnique (handle s r).store := by
  have hset : ∀ (k : String) (v : Value) (q : Filter), k ≠ "email" →
      (List.map emailOf (updateOne s.users q [(k, v)]).1).Pairwise (fun a b => a ≠ b) := by
    intro k v q hk
    rw [updateOne_map_of_invariant emailOf s.users q [(k, v)]]
    · exact (usersUnique_iff s).mp h
    · intro d
      simp [applySet, emailOf, getField_setField_ne _ _ _ _ (Ne.symm hk)]
  cases r with
  | createUser b => exact createUser_usersUnique s b h
  | makeAdmin id =>
    rw [usersUnique_iff]
    exact hset "role" _ _ (by decide)
  | verifyUser id =>
    have hus : (verifyUser s id).store.users =
        (updateOne s.users (.byId id) [("verified", .bool true)]).1 := by
      unfold verifyUser
      dsimp only
      split <;> rfl
    rw [usersUnique_iff]
    show List.Pairwise _ (List.map emailOf (verifyUser s id).store.users)
    rw [hus]
    exact hset "verified" _ _ (by decide)
  | deleteUser id =>
    unfold UsersUnique at h ⊢
    exact List.Pairwise.sublist (deleteOne_sublist s.users (.byId id)) h
  | createProduct b =>
    have hus : (createProduct s b).store.users = s.users := by
      unfold createProduct
      dsimp only
      split <;> rfl
    unfold UsersUnique at h ⊢
    rw [show (handle s (.createProduct b)).store.users = s.users from hus]
    exact h
  | listProducts c => exact h
  | createOrder b t =>
    have hus : (createOrder s b t).store.users = s.users := by
      unfold createOrder
      dsimp only
      split
      · rfl
      · split <;> rfl
    unfold UsersUnique at h ⊢
    rw [show (handle s (.createOrder b t)).store.users = s.users from hus]
    exact h
  | listOrders e =>
    have hus : (listOrders s e).store.users = s.users := by
      unfold listOrders
      split
      · rfl
      · split <;> rfl
    unfold UsersUnique at h ⊢
    rw [show (handle s (.listOrders e)).store.users = s.users from hus]
    exact h
  | getOrder id => exact h
  | adminOrders => exact h
  | deleteOrder id => exact h
  | listUsers e => exact h
  | createPaymentIntent price secret => exact h
  | markPaid id b => exact h
  | root => exact h

theorem handle_orders_of_users_products (s : Store) (r : Request)
    (hr : (∀ b t, r ≠ .createOrder b t) ∧ (∀ id b, r ≠ .markPaid id b) ∧
      (∀ id, r ≠ .deleteOrder id)) :
    (handle s r).store.orders = s.orders := by
  cases r with
  | createOrder b t => exact absurd rfl (hr.1 b t)
  | markPaid id b => exact absurd rfl (hr.2.1 id b)
  | deleteOrder id => exact absurd rfl (hr.2.2 id)
  | createProduct b =>
    show (createProduct s b).store.orders = s.orders
    unfold createProduct
    dsimp only
    split <;> rfl
  | listProducts c => rfl
  | listOrders e =>
    show (listOrders s e).store.orders = s.orders
    unfold listOrders
    split
    · rfl
    · split <;> rfl
  | getOrder id => rfl
  | adminOrders => rfl
  | createUser b =>
    show (createUser s b).store.orders = s.orders
    unfold createUser
    dsimp only
    split
    · rfl
    · split <;> rfl
  | listUsers e => rfl
  | makeAdmin id => rfl
  | verifyUser id =>
    show (verifyUser s id).store.orders = s.orders
    unfold verifyUser
    dsimp only
    split <;> rfl
  | deleteUser id => rfl
  | createPaymentIntent price secret => rfl
  | root => rfl

/-! ## Lemmas on the number conversions -/

theorem digitChar_spec (d : Nat) (h : d < 10) :
    (digitChar d).isDigit = true ∧ digitValue (digitChar d) = d := by
  interval_cases d <;> decide

theorem decimalAux_spec (fuel : Nat) : ∀ (n : Nat) (acc : List Char), n < 10 ^ fuel → 0 < fuel →
    ∃ ds, decimalAux fuel n acc = ds ++ acc ∧ ds ≠ [] ∧ (∀ c ∈ ds, c.isDigit = true) ∧
      ∀ a, ds.foldl (fun acc c => acc * 10 + digitValue c) a = a * 10 ^ ds.length + n := by
  induction fuel with
  | zero => intro n acc _ h; exact absurd h (Nat.lt_irrefl 0)
  | succ fuel ih =>
    intro n acc hn _
    by_cases h10 : n < 10
    · refine ⟨[digitChar n], ?_, by simp, ?_, ?_⟩
      · simp [decimalAux, h10]
      · intro c hc
        rw [List.mem_singleton] at hc
        subst hc
        exact (digitChar_spec n h10).1
      · intro a
        simp [(digitChar_spec n h10).2]
    · have hfuel : 0 < fuel := by
        rcases Nat.eq_zero_or_pos fuel with h0 | h0
        · subst h0
          omega
        · exact h0
      have hdiv : n / 10 < 10 ^ fuel := by
        rw [Nat.div_lt_iff_lt_mul (by decide)]
        rw [pow_succ] at hn
        exact hn
      obtain ⟨ds, hds, _, hdig, hval⟩ := ih (n / 10) (digitChar (n % 10) :: acc) hdiv hfuel
      have hmod : n % 10 < 10 := Nat.mod_lt _ (by decide)
      refine ⟨ds ++ [digitChar (n % 10)], ?_, by simp, ?_, ?_⟩
      · simp [decimalAux, h10, hds]
      · intro c hc
        rcases List.mem_append.mp hc with hc | hc
        · exact hdig c hc
        · rw [List.mem_singleton] at hc
          subst hc
          exact (digitChar_spec _ hmod).1
      · intro a
        rw [List.foldl_append, hval a]
        simp only [List.foldl_cons, List.foldl_nil, (digitChar_spec _ hmod).2,
          List.length_append, List.length_singleton]
        have := Nat.div_add_mod n 10
        rw [pow_succ]
        nlinarith [Nat.div_add_mod n 10]

theorem decimal_spec (n : Nat) :
    decimal n ≠ [] ∧ (∀ c ∈ decimal n, c.isDigit = true) ∧ parseDigits (decimal n) = n := by
  have hn : n < 10 ^ (n + 1) :=
    lt_of_lt_of_le (Nat.lt_pow_self (by decide) n) (Nat.pow_le_pow_right (by decide) (by omega))
  obtain ⟨ds, hds, hne, hdig, hval⟩ := decimalAux_spec (n + 1) n [] hn (by omega)
  have hd : decimal n = ds := by simpa [decimal] using hds
  rw [hd]
  refine ⟨hne, hdig, ?_⟩
  have := hval 0
  simpa [parseDigits] using this

theorem foldl_zeros (m : Nat) : ∀ a : Nat,
    (List.replicate m '0').foldl (fun acc c => acc * 10 + digitValue c) a = a * 10 ^ m := by
  induction m with
  | zero => intro a; simp
  | succ m ih =>
    intro a
    have h0 : digitValue '0' = 0 := by decide
    rw [List.replicate_succ, List.foldl_cons, ih, h0, pow_succ]
    ring

theorem parseInt_padded (v m : Nat) :
    parseInt (decimal v ++ List.replicate m '0') = toDouble (v * 10 ^ m) := by
  obtain ⟨hne, hdig, hval⟩ := decimal_spec v
  have hall : ∀ c ∈ decimal v ++ List.replicate m '0', Char.isDigit c = true := by
    intro c hc
    rcases List.mem_append.mp hc with hc | hc
    · exact hdig c hc
    · rw [List.eq_of_mem_replicate hc]
      decide
  have htake : (decimal v ++ List.replicate m '0').takeWhile Char.isDigit =
      decimal v ++ List.replicate m '0' := List.takeWhile_eq_self_iff.mpr hall
  have hne' : decimal v ++ List.replicate m '0' ≠ [] := by
    intro h
    exact hne (List.append_eq_nil.mp h).1
  unfold parseInt
  rw [htake, if_neg hne']
  unfold parseDigits at hval ⊢
  rw [List.foldl_append, hval, foldl_zeros]

theorem digitCount_le (fuel : Nat) : ∀ (n m : Nat), n < 10 ^ m → 1 ≤ m →
    digitCount fuel n ≤ m := by
  induction fuel with
  | zero => intro n m _ hm; exact hm
  | succ fuel ih =>
    intro n m hn hm
    by_cases h10 : n < 10
    · simp [digitCount, h10, hm]
    · obtain ⟨m', rfl⟩ : ∃ m', m = m' + 1 := ⟨m - 1, by omega⟩
      have hm' : 1 ≤ m' := by
        rcases Nat.eq_zero_or_pos m' with h0 | h0
        · subst h0
          omega
        · exact h0
      have hdiv : n / 10 < 10 ^ m' := by
        rw [Nat.div_lt_iff_lt_mul (by decide)]
        rw [pow_succ] at hn
        exact hn
      have := ih (n / 10) m' hdiv hm'
      simp [digitCount, h10, this]

theorem shortestAux_spec (x d : Nat) (hx : Exact x) : ∀ (fuel k : Nat), k + fuel = d + 1 →
    toDouble ((shortestAux x d fuel k).1 *
        10 ^ ((shortestAux x d fuel k).2.2 - (shortestAux x d fuel k).2.1)) = .fin x ∧
      ((shortestAux x d fuel k).2.2 = d ∨
        ((shortestAux x d fuel k).2.2 = d + 1 ∧ toDouble (10 ^ d) = .fin x)) := by
  intro fuel
  induction fuel with
  | zero =>
    intro k _
    refine ⟨?_, Or.inl rfl⟩
    show toDouble (x * 10 ^ (d - d)) = .fin x
    rw [Nat.sub_self, pow_zero, Nat.mul_one]
    exact hx
  | succ fuel ih =>
    intro k hk
    unfold shortestAux
    dsimp only
    split
    · rename_i hlo
      simp only [Bool.and_eq_true, decide_eq_true_eq] at hlo
      exact ⟨hlo.1, Or.inl rfl⟩
    · split
      · rename_i hhi
        simp only [decide_eq_true_eq] at hhi
        split
        · rename_i hpow
          have hval : 10 ^ d = (x / 10 ^ (d - k) + 1) * 10 ^ (d - k) := by
            rw [hpow, ← pow_add]
            congr 1
            omega
          have h10 : toDouble (10 ^ d) = .fin x := by rw [hval]; exact hhi
          refine ⟨?_, Or.inr ⟨rfl, h10⟩⟩
          simpa using h10
        · exact ⟨hhi, Or.inl rfl⟩
      · exact ih (k + 1) (by omega)

theorem parseInt_numberToString (x : Nat) (hx : Exact x) (hlt : x < 10 ^ 21) :
    parseInt (numberToString (.fin x)) = .fin x := by
  by_cases h0 : x = 0
  · subst h0
    decide
  · have hd : digitCount x x ≤ 21 := digitCount_le x x 21 hlt (by decide)
    obtain ⟨hval, hn⟩ := shortestAux_spec x (digitCount x x) hx (digitCount x x) 1 (by omega)
    have hn21 : (shortest x).2.2 ≤ 21 := by
      rcases hn with hn | ⟨hn, h10⟩
      · unfold shortest
        omega
      · by_cases hd21 : digitCount x x = 21
        · rw [hd21] at h10
          have hc : toDouble (10 ^ 21) = .fin (10 ^ 21) := by decide
          rw [hc] at h10
          injection h10 with h10
          omega
        · unfold shortest
          omega
    simp only [numberToString, h0, if_false, hn21, if_true]
    rw [parseInt_padded]
    exact hval

/-! ## Lemmas on the seller stamp and the payment amount -/

theorem sellerStamp_first (s : Store) (body : Fields) (u : Doc)
    (hu : FirstWith (fun w => emailOf w = sellerEmailOf body) s.users u) :
    jsOr ((findOne s.users (.byFields [("email", bson (getField body "sellerEmail"))])).bind
      (fun u => getField u.fields "verified")) (.bool false) =
      jsOr (getField u.fields "verified") (.bool false) := by
  have hfind : findOne s.users
      (.byFields [("email", bson (getField body "sellerEmail"))]) = some u := by
    apply findOne_eq_some_of_firstWith
    obtain ⟨pre, post, hc, hpre, hu⟩ := hu
    refine ⟨pre, post, hc, ?_, ?_⟩
    · intro w hw
      beta_reduce
      rw [byFields_one_matches]
      exact hpre w hw
    · beta_reduce
      rw [byFields_one_matches]
      exact hu
  rw [hfind]
  rfl

theorem sellerStamp_none (s : Store) (body : Fields)
    (h : ∀ u ∈ s.users, emailOf u ≠ sellerEmailOf body) :
    jsOr ((findOne s.users (.byFields [("email", bson (getField body "sellerEmail"))])).bind
      (fun u => getField u.fields "verified")) (.bool false) = .bool false := by
  have hfind : findOne s.users
      (.byFields [("email", bson (getField body "sellerEmail"))]) = none := by
    rw [findOne_eq_none_iff]
    intro d hd
    have := h d hd
    simpa [Filter.matches, fieldMatches, emailOf, sellerEmailOf] using this
  rw [hfind]
  rfl

/-- In the range where the price and its product with 100 are held exactly by a double and
the product prints without exponent, the handler requests the amount price × 100. -/
theorem createPaymentIntent_exact (s : Store) (price : Nat) (secret : String)
    (hp : Exact price) (hx : Exact (price * 100)) (hlt : price * 100 < 10 ^ 21) :
    createPaymentIntent s price secret =
      { store := s, result := .sent 200 (.clientSecret secret)
        calls := [.paymentIntentsCreate ⟨.fin (price * 100), "bdt", ["card"]⟩] } := by
  unfold Exact at hp
  have hprod : times100 (toDouble price) = .fin (price * 100) := by
    rw [hp]
    exact hx
  unfold createPaymentIntent
  rw [hprod, parseInt_numberToString (price * 100) hx hlt]


/-! ## Create product -/

/-- C1 (as stated) fails: `keyedProductStore` is reached from the empty store by the signup
of a verified seller and one product of theirs sent with the `_id` "k"; no two users share an
email and the Users collection holds a verified user with the seller email of the body, and
yet the handler inserts no product: the body brings the `_id` "k" again, the store rejects
the insert with its duplicate-key error and the handler does not catch it. -/
theorem createProduct_duplicate_id_counterexample :
    run emptyStore [.createUser [("email", .str "a@x"), ("verified", .bool true)],
      .createProduct [("_id", .str "k"), ("sellerEmail", .str "a@x")]] = keyedProductStore ∧
    UsersUnique keyedProductStore ∧
    (∃ u ∈ keyedProductStore.users, emailOf u = sellerEmailOf keyedProductBody ∧
      getField u.fields "verified" = some (.bool true)) ∧
    (createProduct keyedProductStore keyedProductBody).result = .uncaught duplicateKey ∧
    (createProduct keyedProductStore keyedProductBody).store = keyedProductStore := by
  refine ⟨by decide, ?_, by decide, by decide, by decide⟩
  unfold UsersUnique
  decide

/-- C1 (amended): for every store state and every product body whose `_id` is absent, null
or the `_id` of no stored product, the create-product handler appends one product, stored
under the `_id` of the body or a generated one, that keeps every other field of the body
except `verified`; in a state where no two users share an email its `verified` is true when
a user with the body's sellerEmail has verified = true, and false when that user has
verified = false or no verified field; it is false when no user has that email; in any
state the user that decides is the first one with that email; a verified value sent in the
body is overwritten.  When the `_id` of the body is the `_id` of a stored product, the handler
throws the duplicate-key error of the store and the store is unchanged. -/
theorem createProduct_stamps_seller (s : Store) (body : Fields) :
    (IdAccepted s.products body →
      ∃ product : Doc,
        (createProduct s body).store.products = s.products ++ [product] ∧
        (createProduct s body).result = .sent 200 (.insertResult product.oid) ∧
        product.oid = storedId s.nextId body ∧
        (∀ k, k ≠ "verified" → k ≠ "_id" → getField product.fields k = getField body k) ∧
        (UsersUnique s → ∀ u ∈ s.users, emailOf u = sellerEmailOf body →
          (getField u.fields "verified" = some (.bool true) →
            getField product.fields "verified" = some (.bool true)) ∧
          (getField u.fields "verified" = some (.bool false) ∨
              getField u.fields "verified" = none →
            getField product.fields "verified" = some (.bool false))) ∧
        ((∀ u ∈ s.users, emailOf u ≠ sellerEmailOf body) →
          getField product.fields "verified" = some (.bool false)) ∧
        (∀ u, FirstWith (fun w => emailOf w = sellerEmailOf body) s.users u →
          (getField u.fields "verified" = some (.bool true) →
            getField product.fields "verified" = some (.bool true)) ∧
          (getField u.fields "verified" = some (.bool false) ∨
              getField u.fields "verified" = none →
            getField product.fields "verified" = some (.bool false)))) ∧
    (¬ IdAccepted s.products body →
      (createProduct s body).result = .uncaught duplicateKey ∧
      (createProduct s body).store = s) := by
  constructor
  · intro hid
    have hverified : ∀ x : Value,
        getField (eraseField (setField body "verified" x) "_id") "verified" = some x := by
      intro x
      rw [getField_eraseField_ne _ _ _ (by decide), getField_setField_same]
    have hfirst : ∀ u, FirstWith (fun w => emailOf w = sellerEmailOf body) s.users u →
        (getField u.fields "verified" = some (.bool true) →
          getField (eraseField (setField body "verified" (jsOr ((findOne s.users
            (.byFields [("email", bson (getField body "sellerEmail"))])).bind
              (fun u => getField u.fields "verified")) (.bool false))) "_id") "verified"
            = some (.bool true)) ∧
        (getField u.fields "verified" = some (.bool false) ∨
            getField u.fields "verified" = none →
          getField (eraseField (setField body "verified" (jsOr ((findOne s.users
            (.byFields [("email", bson (getField body "sellerEmail"))])).bind
              (fun u => getField u.fields "verified")) (.bool false))) "_id") "verified"
            = some (.bool false)) := by
      intro u hu
      rw [hverified, sellerStamp_first s body u hu]
      constructor
      · intro hv
        simp [hv, jsOr, truthy]
      · rintro (hv | hv) <;> simp [hv, jsOr, truthy]
    rw [createProduct_accepted s body hid]
    refine ⟨_, rfl, rfl, rfl, ?_, ?_, ?_, hfirst⟩
    · intro k hk hk'
      show getField (eraseField (setField body "verified" _) "_id") k = getField body k
      rw [getField_eraseField_ne _ _ _ hk', getField_setField_ne _ _ _ _ hk]
    · intro huniq u hu he
      exact hfirst u (firstWith_of_usersUnique s u (sellerEmailOf body) huniq hu he)
    · intro hnone
      show getField (eraseField (setField body "verified" _) "_id") "verified" = _
      rw [hverified, sellerStamp_none s body hnone]
  · intro hid
    rw [createProduct_rejected s body hid]
    exact ⟨rfl, rfl⟩

/-- Witness of C1 (amended) on `verifiedSeller`: a body that brings no `_id` and says
verified = false is stored under a generated `_id` with verified = true, the flag of the one
user with its sellerEmail. -/
theorem createProduct_stamps_seller_witness :
    IdAccepted verifiedSeller.products
      [("sellerEmail", .str "a@x"), ("verified", .bool false)] ∧
    UsersUnique verifiedSeller ∧
    ∃ product : Doc,
      (createProduct verifiedSeller
        [("sellerEmail", .str "a@x"), ("verified", .bool false)]).store.products =
        verifiedSeller.products ++ [product] ∧
      product.oid = .generated 2 ∧
      getField product.fields "verified" = some (.bool true) :=
  have hid : IdAccepted verifiedSeller.products
      [("sellerEmail", .str "a@x"), ("verified", .bool false)] :=
    idAccepted_of_no_id _ _ rfl
  have hu : UsersUnique verifiedSeller := by
    unfold UsersUnique
    decide
  match (createProduct_stamps_seller verifiedSeller
      [("sellerEmail", .str "a@x"), ("verified", .bool false)]).1 hid with
  | ⟨product, hp, _, hoid, _, hstamp, _, _⟩ =>
    ⟨hid, hu, product, hp, hoid,
      (hstamp hu ⟨.generated 0, [("email", .str "a@x"), ("verified", .bool true)]⟩
        (by decide) (by decide)).1 rfl⟩

/-! ## Create order -/

/-- C2 (as stated) fails: `keyedOrderStore` is reached from the empty store by one order sent
with the `_id` "k"; the body of another buyer brings the same `_id`, so the first create-order
request throws the duplicate-key error of the store, and the second one, with the identical
(buyerEmail, productName), throws it again instead of answering acknowledged = false. -/
theorem createOrder_second_attempt_counterexample :
    run emptyStore [.createOrder [("_id", .str "k"), ("buyerEmail", .str "c@x"),
      ("productName", .str "phone")] 1] = keyedOrderStore ∧
    (createOrder keyedOrderStore keyedOrderBody 5).result = .uncaught duplicateKey ∧
    (createOrder (createOrder keyedOrderStore keyedOrderBody 5).store keyedOrderBody 6).result
      = .uncaught duplicateKey ∧
    (createOrder (createOrder keyedOrderStore keyedOrderBody 5).store
      keyedOrderBody 6).result.acknowledged ≠ some false := by
  decide

/-- C2 (amended): when the Orders collection already holds an order with the buyerEmail and
productName of the body, the create-order handler answers acknowledged = false and leaves the
store (so the Orders collection and its count) unchanged; consequently, from any state in
which that pair is already ordered or the `_id` of the body is absent, null or the `_id` of no
stored order, a second create-order request with the same body is answered
acknowledged = false and changes nothing.  From the other states the first request throws the
duplicate-key error of the store and leaves the store unchanged. -/
theorem createOrder_rejects_duplicate (s : Store) (body : Fields) (now later : Int) :
    ((∃ o ∈ s.orders, orderKey o.fields = orderKey body) →
      (createOrder s body now).result = .sent 200 (.rejected "Already ordered this product!") ∧
      (createOrder s body now).result.acknowledged = some false ∧
      (createOrder s body now).store = s) ∧
    ((∃ o ∈ s.orders, orderKey o.fields = orderKey body) ∨ IdAccepted s.orders body →
      (createOrder (createOrder s body now).store body later).result.acknowledged = some false ∧
      (createOrder (createOrder s body now).store body later).store =
        (createOrder s body now).store ∧
      (createOrder (createOrder s body now).store body later).store.orders.length =
        (createOrder s body now).store.orders.length) ∧
    ((∀ o ∈ s.orders, orderKey o.fields ≠ orderKey body) → ¬ IdAccepted s.orders body →
      (createOrder s body now).result = .uncaught duplicateKey ∧
      (createOrder s body now).store = s) := by
  refine ⟨fun h => ?_, fun h => ?_, fun h hid => ?_⟩
  · rw [createOrder_found s body now h]
    exact ⟨rfl, rfl, rfl⟩
  · have second : ∃ o ∈ (createOrder s body now).store.orders,
        orderKey o.fields = orderKey body := by
      by_cases hf : ∃ o ∈ s.orders, orderKey o.fields = orderKey body
      · rw [createOrder_found s body now hf]
        exact hf
      · have hid : IdAccepted s.orders body := h.resolve_left hf
        rw [createOrder_accepted s body now (fun o ho hk => hf ⟨o, ho, hk⟩) hid]
        exact ⟨_, List.mem_append_right _ (List.mem_singleton_self _),
          orderKey_newOrder body now⟩
    rw [createOrder_found _ body later second]
    exact ⟨rfl, rfl, rfl⟩
  · rw [createOrder_rejected s body now h hid]
    exact ⟨rfl, rfl⟩

/-- Witness of C2 (amended) on `oneOrder`, asked twice for the order of another buyer, and
asked for the order it already holds. -/
theorem createOrder_rejects_duplicate_witness :
    (∃ o ∈ oneOrder.orders, orderKey o.fields =
      orderKey [("buyerEmail", .str "c@x"), ("productName", .str "phone")]) ∧
    (createOrder oneOrder [("buyerEmail", .str "c@x"), ("productName", .str "phone")] 5).store
      = oneOrder ∧
    IdAccepted oneOrder.orders paidOrderBody ∧
    (createOrder (createOrder oneOrder paidOrderBody 5).store paidOrderBody 6).result.acknowledged
      = some false :=
  have hid : IdAccepted oneOrder.orders paidOrderBody := idAccepted_of_no_id _ _ rfl
  ⟨by decide,
   ((createOrder_rejects_duplicate oneOrder
      [("buyerEmail", .str "c@x"), ("productName", .str "phone")] 5 6).1 (by decide)).2.2,
   hid,
   ((createOrder_rejects_duplicate oneOrder paidOrderBody 5 6).2.1 (Or.inr hid)).1⟩

/-- C6 (as stated) fails: no order of `keyedOrderStore` has the (buyerEmail, productName) pair
of `keyedOrderBody`, and yet the create-order handler inserts no order, Pending or other: the
body brings the `_id` "k" of the stored order and the handler throws the duplicate-key error
of the store. -/
theorem createOrder_pending_counterexample :
    run emptyStore [.createOrder [("_id", .str "k"), ("buyerEmail", .str "c@x"),
      ("productName", .str "phone")] 1] = keyedOrderStore ∧
    (∀ o ∈ keyedOrderStore.orders, orderKey o.fields ≠ orderKey keyedOrderBody) ∧
    (createOrder keyedOrderStore keyedOrderBody 5).result = .uncaught duplicateKey ∧
    (createOrder keyedOrderStore keyedOrderBody 5).store.orders = keyedOrderStore.orders ∧
    (∀ o ∈ (createOrder keyedOrderStore keyedOrderBody 5).store.orders,
      getField o.fields "buyerEmail" ≠ getField keyedOrderBody "buyerEmail") := by
  decide

/-- C6 (amended): for every store state and every order body whose (buyerEmail, productName)
pair no stored order has and whose `_id` is absent, null or the `_id` of no stored order, the
create-order handler appends one order, stored under the `_id` of the body or a generated one,
with status = "Pending" and createdAt = now, whatever status or createdAt the body carried,
and with every other field of the body as sent.  When the `_id` of the body is the `_id` of a
stored order, the handler throws the duplicate-key error of the store and the store is
unchanged. -/
theorem createOrder_inserts_pending (s : Store) (body : Fields) (now : Int)
    (h : ∀ o ∈ s.orders, orderKey o.fields ≠ orderKey body) :
    (IdAccepted s.orders body →
      ∃ newOrder : Doc,
        (createOrder s body now).store.orders = s.orders ++ [newOrder] ∧
        (createOrder s body now).result = .sent 200 (.insertResult newOrder.oid) ∧
        newOrder.oid = storedId s.nextId body ∧
        getField newOrder.fields "status" = some (.str "Pending") ∧
        getField newOrder.fields "createdAt" = some (.date now) ∧
        ∀ k, k ≠ "status" → k ≠ "createdAt" → k ≠ "_id" →
          getField newOrder.fields k = getField body k) ∧
    (¬ IdAccepted s.orders body →
      (createOrder s body now).result = .uncaught duplicateKey ∧
      (createOrder s body now).store = s) := by
  constructor
  · intro hid
    rw [createOrder_accepted s body now h hid]
    refine ⟨_, rfl, rfl, rfl, ?_, ?_, ?_⟩
    · show getField (eraseField _ "_id") "status" = _
      rw [getField_eraseField_ne _ _ _ (by decide), getField_setField_ne _ _ _ _ (by decide),
        getField_setField_same]
    · show getField (eraseField _ "_id") "createdAt" = _
      rw [getField_eraseField_ne _ _ _ (by decide), getField_setField_same]
    · intro k h1 h2 h3
      show getField (eraseField _ "_id") k = _
      rw [getField_eraseField_ne _ _ _ h3, getField_setField_ne _ _ _ _ h2,
        getField_setField_ne _ _ _ _ h1]
  · intro hid
    rw [createOrder_rejected s body now h hid]
    exact ⟨rfl, rfl⟩

/-- Witness of C6 (amended): a body that says status = "Paid" is stored as "Pending". -/
theorem createOrder_inserts_pending_witness :
    (∀ o ∈ oneOrder.orders, orderKey o.fields ≠ orderKey paidOrderBody) ∧
    IdAccepted oneOrder.orders paidOrderBody ∧
    ∃ newOrder : Doc,
      (createOrder oneOrder paidOrderBody 9).store.orders = oneOrder.orders ++ [newOrder] ∧
      (createOrder oneOrder paidOrderBody 9).result = .sent 200 (.insertResult newOrder.oid) ∧
      newOrder.oid = storedId oneOrder.nextId paidOrderBody ∧
      getField newOrder.fields "status" = some (.str "Pending") ∧
      getField newOrder.fields "createdAt" = some (.date 9) ∧
      ∀ k, k ≠ "status" → k ≠ "createdAt" → k ≠ "_id" →
        getField newOrder.fields k = getField paidOrderBody k :=
  have hid : IdAccepted oneOrder.orders paidOrderBody := idAccepted_of_no_id _ _ rfl
  ⟨by decide, hid, (createOrder_inserts_pending oneOrder paidOrderBody 9 (by decide)).1 hid⟩

/-! ## List orders by buyer -/

/-- C7: without an email, or with an empty one, the list-orders handler answers status 400
and issues no call to the store, whatever the store holds; with a non-empty email it answers
with exactly the orders whose buyerEmail is that email, in collection order. -/
theorem listOrders_requires_email (s : Store) (e : String) :
    listOrders s none =
      { store := s, result := .sent 400 (.error "Email is required"), calls := [] } ∧
    listOrders s (some "") =
      { store := s, result := .sent 400 (.error "Email is required"), calls := [] } ∧
    (e ≠ "" → listOrders s (some e) =
      { store := s
        result := .sent 200 (.documents
          (s.orders.filter (fun o => decide (getField o.fields "buyerEmail" = some (.str e)))))
        calls := [.find .Orders] }) := by
  refine ⟨rfl, rfl, fun he => ?_⟩
  have hf : find s.orders (.byFields [("buyerEmail", .str e)]) =
      s.orders.filter (fun o => decide (getField o.fields "buyerEmail" = some (.str e))) := by
    unfold find
    apply List.filter_congr
    intro o _
    rw [Bool.eq_iff_iff, byFields_one_matches]
    cases hg : getField o.fields "buyerEmail" <;> simp [bson]
  simp [listOrders, he, hf]

/-- Witness of C7 on `oneOrder` for the buyer "c@x". -/
theorem listOrders_requires_email_witness :
    (listOrders oneOrder (some "c@x")).result = .sent 200 (.documents oneOrder.orders) ∧
    (listOrders oneOrder none).result.status = some 400 := by
  have h := listOrders_requires_email oneOrder "c@x"
  refine ⟨?_, ?_⟩
  · rw [h.2.2 (by decide)]
    decide
  · rw [h.1]
    rfl

/-! ## Create user -/

/-- C4: when the Users collection already holds a user with the email of the body, the
create-user handler answers acknowledged = false and leaves the store unchanged; and if no two
users share an email before a create-user request, no two users share an email after it. -/
theorem createUser_rejects_duplicate (s : Store) (body : Fields) :
    ((∃ u ∈ s.users, emailOf u = bson (getField body "email")) →
      (createUser s body).result = .sent 200 (.rejected "User already exists") ∧
      (createUser s body).result.acknowledged = some false ∧
      (createUser s body).store = s) ∧
    (UsersUnique s → UsersUnique (createUser s body).store) := by
  refine ⟨fun h => ?_, createUser_usersUnique s body⟩
  rw [createUser_found s body h]
  exact ⟨rfl, rfl, rfl⟩

/-- Witness of C4 on `oneUser`, asked to create the user it already holds. -/
theorem createUser_rejects_duplicate_witness :
    (∃ u ∈ oneUser.users, emailOf u = bson (getField userBody "email")) ∧
    UsersUnique oneUser ∧
    (createUser oneUser userBody).store = oneUser ∧
    UsersUnique (createUser oneUser userBody).store :=
  have hex : ∃ u ∈ oneUser.users, emailOf u = bson (getField userBody "email") := by decide
  have hu : UsersUnique oneUser := by
    unfold UsersUnique
    decide
  ⟨hex, hu, ((createUser_rejects_duplicate oneUser userBody).1 hex).2.2,
    (createUser_rejects_duplicate oneUser userBody).2 hu⟩

/-! ## Verify user -/

/-- C3 (as stated) fails: `verifiedSeller` is reached from the empty store by creating a
user, verifying them and creating one product of theirs; the user's email matches exactly
N = 1 product, and verifying the user again reports productsUpdated = 0, because the
modifiedCount of the update leaves out a product whose `verified` is already true. -/
theorem verifyUser_count_counterexample :
    run emptyStore [.createUser [("email", .str "a@x")], .verifyUser 0,
      .createProduct [("sellerEmail", .str "a@x"), ("category", .str "phone")]]
      = verifiedSeller ∧
    (∃ u ∈ verifiedSeller.users, u.oid = .generated 0 ∧
      (verifiedSeller.products.filter
        (fun p => decide (sellerEmailOf p.fields = emailOf u))).length = 1) ∧
    (verifyUser verifiedSeller 0).result = .sent 200 (.verifyCounts 0 0) := by
  decide

/-- C3 (amended): for every store state and every id of an existing user `u`, whose email matches
exactly N products' sellerEmail, the verify-user handler sets verified = true on each of
those N products and on no other product, so that all N have verified = true afterwards,
and responds with productsUpdated = the number of those N products whose `verified` was not
already true. -/
theorem verifyUser_cascades (s : Store) (u : Doc) (id : ObjectId)
    (hnd : (s.users.map Doc.oid).Nodup) (hu : u ∈ s.users) (hid : u.oid = .generated id) :
    (verifyUser s id).store.products =
      s.products.map (fun p => if sellerEmailOf p.fields = emailOf u
        then ⟨p.oid, setField p.fields "verified" (.bool true)⟩ else p) ∧
    (∀ p ∈ (verifyUser s id).store.products, sellerEmailOf p.fields = emailOf u →
      getField p.fields "verified" = some (.bool true)) ∧
    ((verifyUser s id).store.products.filter
        (fun p => decide (sellerEmailOf p.fields = emailOf u))).length =
      (s.products.filter (fun p => decide (sellerEmailOf p.fields = emailOf u))).length ∧
    ∃ userUpdated, (verifyUser s id).result = .sent 200 (.verifyCounts userUpdated
      (s.products.filter (fun p => decide (sellerEmailOf p.fields = emailOf u) &&
        decide (getField p.fields "verified" ≠ some (.bool true)))).length) := by
  have hfind := findOne_byId_of_nodup s.users u id hu hid hnd
  have hmatch : ∀ p : Doc,
      (Filter.byFields [("sellerEmail", bson (getField u.fields "email"))]).matches p = true ↔
        sellerEmailOf p.fields = emailOf u := fun p => byFields_one_matches p _ _
  have hprod : (verifyUser s id).store.products =
      s.products.map (fun p => if sellerEmailOf p.fields = emailOf u
        then ⟨p.oid, setField p.fields "verified" (.bool true)⟩ else p) := by
    simp only [verifyUser, hfind, updateMany]
    apply List.map_congr_left
    intro p _
    by_cases hp : sellerEmailOf p.fields = emailOf u
    · simp [hp, (hmatch p).mpr hp, applySet_verified]
    · have : (Filter.byFields [("sellerEmail", bson (getField u.fields "email"))]).matches p
          = false := by
        rw [Bool.eq_false_iff, Ne, hmatch]
        exact hp
      simp [hp, this]
  refine ⟨hprod, ?_, ?_, ?_⟩
  · intro p hp hsel
    rw [hprod, List.mem_map] at hp
    obtain ⟨p0, _, rfl⟩ := hp
    by_cases h0 : sellerEmailOf p0.fields = emailOf u
    · simp [h0, getField_setField_same]
    · rw [if_neg h0] at hsel
      exact absurd hsel h0
  · rw [hprod, List.filter_map, List.length_map]
    congr 1
    apply List.filter_congr
    intro p _
    by_cases h0 : sellerEmailOf p.fields = emailOf u
    · have h1 : sellerEmailOf (setField p.fields "verified" (.bool true)) = emailOf u := by
        unfold sellerEmailOf at h0 ⊢
        rw [getField_setField_ne _ _ _ _ (by decide)]
        exact h0
      simp [h0, h1]
    · simp [h0]
  · refine ⟨(updateOne s.users (.byId id) [("verified", .bool true)]).2.modifiedCount, ?_⟩
    simp only [verifyUser, hfind, updateMany]
    rw [sum_map_modified]
    congr 3
    apply List.filter_congr
    intro p _
    rw [Bool.eq_iff_iff]
    simp only [Bool.and_eq_true, decide_eq_true_eq, hmatch, ne_eq,
      applySet_verified_eq_self_iff]

/-- Witness of C3 (amended) on `newSeller`: two of the three products are the user's, both
unverified, and productsUpdated is 2. -/
theorem verifyUser_cascades_witness :
    (newSeller.users.map Doc.oid).Nodup ∧
    (⟨.generated 0, [("email", .str "a@x")]⟩ : Doc) ∈ newSeller.users ∧
    (∃ userUpdated, (verifyUser newSeller 0).result = .sent 200 (.verifyCounts userUpdated 2)) :=
  ⟨by decide, by decide,
   (verifyUser_cascades newSeller ⟨.generated 0, [("email", .str "a@x")]⟩ 0
     (by decide) (by decide) rfl).2.2.2⟩

/-- C10: for every store state and every id that matches no user, the verify-user handler
throws while reading the email of the absent user, sends no counts, leaves the store (Users
and Products) unchanged, and has issued only the user lookup and the user update, never the
bulk product update. -/
theorem verifyUser_absent_throws (s : Store) (id : ObjectId)
    (h : ∀ u ∈ s.users, u.oid ≠ .generated id) :
    (verifyUser s id).result =
      .uncaught "TypeError: Cannot read properties of null (reading 'email')" ∧
    (verifyUser s id).store = s ∧
    (updateOne s.users (.byId id) [("verified", .bool true)]).2.matchedCount = 0 ∧
    (verifyUser s id).calls = [.findOne .Users, .updateOne .Users] := by
  have hno : ∀ d ∈ s.users, (Filter.byId id).matches d = false := by
    intro d hd
    simp [Filter.matches, h d hd]
  have hfind : findOne s.users (.byId id) = none := (findOne_eq_none_iff _ _).mpr hno
  have hupd := updateOne_no_match s.users (.byId id) [("verified", .bool true)] hno
  simp [verifyUser, hfind, hupd]

/-- Witness of C10 on `newSeller` with the id 9 of no user. -/
theorem verifyUser_absent_throws_witness :
    (∀ u ∈ newSeller.users, u.oid ≠ .generated 9) ∧ (verifyUser newSeller 9).store = newSeller ∧
    (verifyUser newSeller 9).result.acknowledged = none :=
  have h := verifyUser_absent_throws newSeller 9 (by decide)
  ⟨by decide, h.2.1, by rw [h.1]; rfl⟩

/-! ## Mark order paid -/

/-- C5: for every store state, every order present in the Orders collection and every
transactionId `t` sent in the body, after the mark-order-paid handler has run on the id of
that order, the order with that id is still present and has status = "Paid" and
transactionId = t, whatever its status and transactionId were before. -/
theorem markPaid_sets_paid (s : Store) (o : Doc) (id : ObjectId) (body : Fields) (t : Value)
    (hnd : (s.orders.map Doc.oid).Nodup) (ho : o ∈ s.orders) (hid : o.oid = .generated id)
    (ht : getField body "transactionId" = some t) :
    (∃ o' ∈ (markPaid s id body).store.orders, o'.oid = .generated id) ∧
    (∀ o' ∈ (markPaid s id body).store.orders, o'.oid = .generated id →
      getField o'.fields "status" = some (.str "Paid") ∧
      getField o'.fields "transactionId" = some t) ∧
    (markPaid s id body).store.orders.length = s.orders.length := by
  have horders : (markPaid s id body).store.orders =
      s.orders.map (fun d => if d.oid = .generated id then
        applySet [("status", .str "Paid"), ("transactionId", t)] d else d) := by
    simp only [markPaid, ht, bson]
    exact updateOne_byId_nodup s.orders id _ hnd
  have hpaid : ∀ d : Doc,
      getField (applySet [("status", .str "Paid"), ("transactionId", t)] d).fields "status"
        = some (.str "Paid") ∧
      getField (applySet [("status", .str "Paid"), ("transactionId", t)] d).fields
        "transactionId" = some t := by
    intro d
    constructor
    · show getField (setField (setField d.fields "status" (.str "Paid")) "transactionId" t)
        "status" = some (.str "Paid")
      rw [getField_setField_ne _ _ _ _ (by decide), getField_setField_same]
    · show getField (setField (setField d.fields "status" (.str "Paid")) "transactionId" t)
        "transactionId" = some t
      rw [getField_setField_same]
  refine ⟨?_, ?_, ?_⟩
  · refine ⟨applySet [("status", .str "Paid"), ("transactionId", t)] o, ?_, hid⟩
    rw [horders, List.mem_map]
    exact ⟨o, ho, by simp [hid]⟩
  · intro o' ho' hid'
    rw [horders, List.mem_map] at ho'
    obtain ⟨d, _, rfl⟩ := ho'
    by_cases hd : d.oid = .generated id
    · rw [if_pos hd]
      exact hpaid d
    · rw [if_neg hd] at hid'
      exact absurd hid' hd
  · rw [horders, List.length_map]

/-- Witness of C5 on `twoOrders`: the order 0, paid before under "tx_old", is marked paid
under "tx_new". -/
theorem markPaid_sets_paid_witness :
    (twoOrders.orders.map Doc.oid).Nodup ∧
    (markPaid twoOrders 0 [("transactionId", .str "tx_new")]).store.orders.length = 2 ∧
    ∀ o' ∈ (markPaid twoOrders 0 [("transactionId", .str "tx_new")]).store.orders,
      o'.oid = .generated 0 →
      getField o'.fields "status" = some (.str "Paid") ∧
      getField o'.fields "transactionId" = some (.str "tx_new") :=
  have h := markPaid_sets_paid twoOrders
    ⟨.generated 0, [("buyerEmail", .str "c@x"), ("productName", .str "phone"),
      ("status", .str "Paid"), ("transactionId", .str "tx_old")]⟩ 0
    [("transactionId", .str "tx_new")] (.str "tx_new") (by decide) (by decide) rfl rfl
  ⟨by decide, h.2.2, h.2.1⟩

/-! ## Order uniqueness -/

/-- C9 (as stated) fails in its second part: the product "phone" of `keyedOrderStore` is
ordered by "c@x" only, and the create-order request of "b@x" for it is not inserted: the body
brings the `_id` "k" of the stored order, and the handler throws the duplicate-key error of
the store and leaves the Orders collection as it was. -/
theorem createOrder_other_buyer_counterexample :
    (∃ o ∈ keyedOrderStore.orders,
      bson (getField o.fields "productName") = bson (getField keyedOrderBody "productName")) ∧
    (∀ o ∈ keyedOrderStore.orders,
      bson (getField o.fields "productName") = bson (getField keyedOrderBody "productName") →
      bson (getField o.fields "buyerEmail") ≠ bson (getField keyedOrderBody "buyerEmail")) ∧
    (handle keyedOrderStore (.createOrder keyedOrderBody 5)).result = .uncaught duplicateKey ∧
    (handle keyedOrderStore (.createOrder keyedOrderBody 5)).store = keyedOrderStore ∧
    (handle keyedOrderStore (.createOrder keyedOrderBody 5)).store.orders.length = 1 := by
  decide

/-- C9 (amended): order uniqueness is an invariant of sequential request handling: if no two
orders share a (buyerEmail, productName) pair, then after any one handler has run to
completion no two orders share a pair; and a create-order request whose productName is already
ordered, but only under other buyerEmails, and whose `_id` is absent, null or the `_id` of no
stored order, is not rejected: the order is inserted.  When the `_id` of such a request is the
`_id` of a stored order, the handler throws the duplicate-key error of the store and the store
is unchanged. -/
theorem ordersUnique_invariant (s : Store) (r : Request) (body : Fields) (now : Int) :
    (OrdersUnique s → OrdersUnique (handle s r).store) ∧
    ((∃ o ∈ s.orders, bson (getField o.fields "productName") = bson (getField body "productName"))
      → (∀ o ∈ s.orders,
          bson (getField o.fields "productName") = bson (getField body "productName") →
          bson (getField o.fields "buyerEmail") ≠ bson (getField body "buyerEmail"))
      → (IdAccepted s.orders body →
          (createOrder s body now).result = .sent 200 (.insertResult (storedId s.nextId body)) ∧
          (createOrder s body now).result.acknowledged = some true ∧
          ∃ newOrder : Doc, orderKey newOrder.fields = orderKey body ∧
            newOrder.oid = storedId s.nextId body ∧
            (createOrder s body now).store.orders = s.orders ++ [newOrder]) ∧
        (¬ IdAccepted s.orders body →
          (createOrder s body now).result = .uncaught duplicateKey ∧
          (createOrder s body now).store = s)) := by
  constructor
  · intro hs
    by_cases hr : (∀ b t, r ≠ .createOrder b t) ∧ (∀ id b, r ≠ .markPaid id b) ∧
        (∀ id, r ≠ .deleteOrder id)
    · unfold OrdersUnique at hs ⊢
      rw [handle_orders_of_users_products s r hr]
      exact hs
    · cases r with
      | createOrder b t =>
        show OrdersUnique (createOrder s b t).store
        by_cases h : ∃ o ∈ s.orders, orderKey o.fields = orderKey b
        · rw [createOrder_found s b t h]
          exact hs
        · have h' : ∀ o ∈ s.orders, orderKey o.fields ≠ orderKey b :=
            fun o ho hk => h ⟨o, ho, hk⟩
          by_cases hid : IdAccepted s.orders b
          · rw [createOrder_accepted s b t h' hid]
            unfold OrdersUnique at hs ⊢
            show List.Pairwise _ (s.orders ++ [_])
            rw [List.pairwise_append]
            refine ⟨hs, List.pairwise_singleton _ _, ?_⟩
            intro a ha c hc
            rw [List.mem_singleton] at hc
            subst hc
            rw [orderKey_newOrder]
            exact h' a ha
          · rw [createOrder_rejected s b t h' hid]
            exact hs
      | markPaid id b =>
        rw [ordersUnique_iff] at hs ⊢
        show List.Pairwise _ (List.map _ (updateOne s.orders _ _).1)
        rw [updateOne_map_of_invariant (fun d => orderKey d.fields) s.orders _ _
          (orderKey_applySet_paid _)]
        exact hs
      | deleteOrder id =>
        unfold OrdersUnique at hs ⊢
        exact List.Pairwise.sublist (deleteOne_sublist s.orders (.byId id)) hs
      | createProduct b => exact absurd ⟨by simp, by simp, by simp⟩ hr
      | listProducts c => exact absurd ⟨by simp, by simp, by simp⟩ hr
      | listOrders e => exact absurd ⟨by simp, by simp, by simp⟩ hr
      | getOrder id => exact absurd ⟨by simp, by simp, by simp⟩ hr
      | adminOrders => exact absurd ⟨by simp, by simp, by simp⟩ hr
      | createUser b => exact absurd ⟨by simp, by simp, by simp⟩ hr
      | listUsers e => exact absurd ⟨by simp, by simp, by simp⟩ hr
      | makeAdmin id => exact absurd ⟨by simp, by simp, by simp⟩ hr
      | verifyUser id => exact absurd ⟨by simp, by simp, by simp⟩ hr
      | deleteUser id => exact absurd ⟨by simp, by simp, by simp⟩ hr
      | createPaymentIntent price secret => exact absurd ⟨by simp, by simp, by simp⟩ hr
      | root => exact absurd ⟨by simp, by simp, by simp⟩ hr
  · intro _ hother
    have h' : ∀ o ∈ s.orders, orderKey o.fields ≠ orderKey body := by
      intro o ho hk
      have hk' := Prod.ext_iff.mp hk
      exact hother o ho hk'.2 hk'.1
    constructor
    · intro hid
      rw [createOrder_accepted s body now h' hid]
      exact ⟨rfl, rfl, _, orderKey_newOrder body now, rfl, rfl⟩
    · intro hid
      rw [createOrder_rejected s body now h' hid]
      exact ⟨rfl, rfl⟩

/-- Witness of C9 (amended) on `oneOrder`: the product "phone", ordered by "c@x", is ordered
by "b@x", and the two orders do not share a pair. -/
theorem ordersUnique_invariant_witness :
    OrdersUnique oneOrder ∧
    OrdersUnique (handle oneOrder (.createOrder paidOrderBody 9)).store ∧
    (handle oneOrder (.createOrder paidOrderBody 9)).store.orders.length = 2 ∧
    IdAccepted oneOrder.orders paidOrderBody ∧
    (createOrder oneOrder paidOrderBody 9).result.acknowledged = some true :=
  have hu : OrdersUnique oneOrder := by
    unfold OrdersUnique
    decide
  have hid : IdAccepted oneOrder.orders paidOrderBody := idAccepted_of_no_id _ _ rfl
  have h := ordersUnique_invariant oneOrder (.createOrder paidOrderBody 9) paidOrderBody 9
  ⟨hu, h.1 hu, by decide, hid, ((h.2 (by decide) (by decide)).1 hid).2.1⟩

/-! ## Create payment intent -/

/-- C8: the claim fails on the code at the price 10^19.  The price is a non-negative integer
that a double holds exactly, and so is its product with 100, yet the amount requested from
the provider is 1 and not 10^21: `parseInt` reads the string "1e+21" of the product and stops
at the letter.  At the price 10 the same code requests 1000, the price in paisa that the
comment of the source announces. -/
theorem createPaymentIntent_amount_at_1e19 :
    Exact (10 ^ 19) ∧ Exact (10 ^ 19 * 100) ∧
    numberToString (times100 (toDouble (10 ^ 19))) = ['1', 'e', '+', '2', '1'] ∧
    (createPaymentIntent emptyStore (10 ^ 19) "cs").calls =
      [.paymentIntentsCreate ⟨.fin 1, "bdt", ["card"]⟩] ∧
    Num.fin 1 ≠ Num.fin (10 ^ 19 * 100) ∧
    (createPaymentIntent emptyStore 10 "cs").calls =
      [.paymentIntentsCreate ⟨.fin 1000, "bdt", ["card"]⟩] := by
  refine ⟨?_, ?_, ?_, ?_, ?_, ?_⟩
  · unfold Exact
    decide
  · unfold Exact
    decide
  · decide
  · decide
  · decide
  · decide

end ResellBd
